import Mathlib

/-!
Verification development for the `opencode-smart-voice-notify` plugin.

The plugin's core (the event-driven reminder/escalation state machine of
`index.js`, whose text is embedded in `README.md` of the repository) is
shallowly embedded below.  Timestamps and delays are modelled as rationals
(milliseconds), JavaScript `setTimeout`/`clearTimeout` as an explicit list of
armed timers with fresh numeric ids, and the cooperative event loop as a
deterministic interpreter: external events and due timer callbacks run
atomically, in time order.  Asynchronous adapter calls (sound playback, TTS
speech, toasts) are recorded as entries in an effect trace; an oracle says
which timer callbacks have their `tts.speak` call throw, which models the
only exception source the reminder callbacks contain.

The idle-event debounce tracker and its reset are not part of the embedded
`index.js` snapshot (only the repository's tests exercise them); they are
modelled from the spec where marked `Modelled from the spec:`.
-/

namespace SVN

/-- Notification types handled by the embedded snapshot's reminder map
(`'idle'` and `'permission'` are the two values `scheduleTTSReminder` is
called with). -/
inductive RType where
  | idle
  | permission
deriving DecidableEq, Repr

/-- `notificationMode` configuration values. -/
inductive NMode where
  | soundFirst
  | ttsFirst
  | bothMode
  | soundOnly
deriving DecidableEq, Repr

/-- JavaScript `a || b` on an optionally-present numeric config field:
`undefined` and `0` both fall through to the default (0 is falsy). -/
def jsOrQ (x : Option ℚ) (d : ℚ) : ℚ :=
  match x with
  | none => d
  | some v => if v = 0 then d else v

/-- JavaScript `a || b` on an optionally-present integer config field. -/
def jsOrN (x : Option Nat) (d : Nat) : Nat :=
  match x with
  | none => d
  | some v => if v = 0 then d else v

/-- The resolved configuration fields the core reads
(`getTTSConfig()` result, restricted to what the event handlers use). -/
structure Config where
  enableTTSReminder : Bool := true
  enableFollowUpReminders : Bool := false
  maxFollowUpReminders : Option Nat := none
  reminderBackoffMultiplier : Option ℚ := none
  ttsReminderDelaySeconds : Option ℚ := none
  idleReminderDelaySeconds : Option ℚ := none
  permissionReminderDelaySeconds : Option ℚ := none
  permissionBatchWindowMs : Option ℚ := none
  enableSound : Bool := true
  enableToast : Bool := true
  notificationMode : NMode := .soundFirst
  ttsEngine : String := "edge"
  elevenLabsApiKey : Option String := none
  idleSound : Option String := none
  permissionSound : Option String := none
deriving DecidableEq, Repr

/-- A `PendingReminder` value in the `pendingReminders` map. -/
structure Reminder where
  timeoutId : Nat
  scheduledAt : ℚ
  followUpCount : Nat
  permissionCount : Nat
deriving DecidableEq, Repr

/-- Which callback a `setTimeout` handle will run: the initial reminder
callback of `scheduleTTSReminder` (which captured `delaySeconds`), the
follow-up reminder callback, or the permission batch-window callback. -/
inductive TimerKind where
  | reminderMain (ty : RType) (delaySeconds : ℚ)
  | reminderFollowUp (ty : RType)
  | permissionBatch
deriving DecidableEq, Repr

/-- An armed `setTimeout` handle. -/
structure Timer where
  id : Nat
  fireAt : ℚ
  kind : TimerKind
deriving DecidableEq, Repr

/-- The notification type a reminder timer belongs to (`none` for the batch
window timer). -/
def remTy : TimerKind → Option RType
  | .reminderMain ty _ => some ty
  | .reminderFollowUp ty => some ty
  | .permissionBatch => none

/-- Observable side effects (adapter calls) recorded by the model.  Sound
and immediate speech are tagged with the notification type of the
`smartNotify` invocation that issued them; message text selection
(`getRandomMessage` / `getPermissionMessage`) is abstracted into the stored
request count the call used. -/
inductive Effect where
  | soundPlayed (ty : RType) (loops : Nat)
  | toastIdle
  | toastBatch (count : Nat)
  | toastWarning
  | speakReminder (ty : RType) (isFollowUp : Bool) (count : Nat)
  | speakImmediate (ty : RType)
deriving DecidableEq, Repr

/-- Association-list lookup (model of `Map.get`). -/
def alGet {κ ν : Type} [DecidableEq κ] : List (κ × ν) → κ → Option ν
  | [], _ => none
  | (k, v) :: r, key => if k = key then some v else alGet r key

/-- Association-list key removal (model of `Map.delete`). -/
def alErase {κ ν : Type} [DecidableEq κ] : List (κ × ν) → κ → List (κ × ν)
  | [], _ => []
  | (k, v) :: r, key => if k = key then alErase r key else (k, v) :: alErase r key

/-- Association-list insert-or-replace (model of `Map.set`). -/
def alSet {κ ν : Type} [DecidableEq κ] (m : List (κ × ν)) (key : κ) (v : ν) :
    List (κ × ν) :=
  alErase m key ++ [(key, v)]

/-- The module-level mutable state of the plugin closure, plus the armed
timers, a fresh-id counter, the virtual clock and the effect trace.
`idleDebounce` is the spec-modelled per-session last-accepted-idle map. -/
structure PState where
  now : ℚ
  pendingReminders : List (RType × Reminder)
  lastUserActivityTime : ℚ
  seenUserMessageIds : List String
  lastSessionIdleTime : ℚ
  activePermissionId : Option String
  pendingPermissionBatch : List String
  permissionBatchTimeout : Option Nat
  timers : List Timer
  nextTimerId : Nat
  idleDebounce : List (String × ℚ)
  effects : List (ℚ × Effect)
deriving DecidableEq, Repr

/-- State at plugin instantiation (virtual time 0;
`lastUserActivityTime = Date.now()` at module initialisation). -/
def initState : PState :=
  { now := 0
    pendingReminders := []
    lastUserActivityTime := 0
    seenUserMessageIds := []
    lastSessionIdleTime := 0
    activePermissionId := none
    pendingPermissionBatch := []
    permissionBatchTimeout := none
    timers := []
    nextTimerId := 0
    idleDebounce := []
    effects := [] }

/-- Append an effect to the trace at the current virtual time. -/
def emitE (e : Effect) (st : PState) : PState :=
  { st with effects := st.effects ++ [(st.now, e)] }

/-- `showToast`: records a toast only when `config.enableToast` is set
(variant and duration are not modelled). -/
def toastIf (cfg : Config) (e : Effect) (st : PState) : PState :=
  if cfg.enableToast then emitE e st else st

/-- `playSound`: gated on `config.enableSound`; the sound file is assumed to
exist (the `fs.existsSync` guard is taken to succeed for configured assets).
The effect is tagged with the notification type of the calling
`smartNotify`. -/
def playSoundM (cfg : Config) (ty : RType) (loops : Nat) (st : PState) : PState :=
  if cfg.enableSound then emitE (.soundPlayed ty loops) st else st

/-- Remove the timer with the given id (model of `clearTimeout`). -/
def removeTimer (ts : List Timer) (tid : Nat) : List Timer :=
  ts.filter (fun tm => tm.id ≠ tid)

/-- `cancelPendingReminder(type)`: clear the stored timeout and delete the
map entry, if present. -/
def cancelPendingReminder (ty : RType) (st : PState) : PState :=
  match alGet st.pendingReminders ty with
  | some r =>
      { st with timers := removeTimer st.timers r.timeoutId
                pendingReminders := alErase st.pendingReminders ty }
  | none => st

/-- Is `tid` the stored timeout id of some `pendingReminders` entry? -/
def referencedBy (prs : List (RType × Reminder)) (tid : Nat) : Bool :=
  prs.any (fun p => p.2.timeoutId = tid)

/-- `cancelAllPendingReminders()`: clear every stored timeout, then clear
the map. -/
def cancelAllPendingReminders (st : PState) : PState :=
  { st with timers := st.timers.filter (fun tm => ¬ referencedBy st.pendingReminders tm.id)
            pendingReminders := [] }

/-- The delay (in seconds) `scheduleTTSReminder` resolves for a type:
`permissionReminderDelaySeconds || ttsReminderDelaySeconds || 30` for
permissions, `idleReminderDelaySeconds || ttsReminderDelaySeconds || 30`
otherwise. -/
def reminderDelaySeconds (cfg : Config) (ty : RType) : ℚ :=
  match ty with
  | .permission => jsOrQ cfg.permissionReminderDelaySeconds (jsOrQ cfg.ttsReminderDelaySeconds 30)
  | .idle => jsOrQ cfg.idleReminderDelaySeconds (jsOrQ cfg.ttsReminderDelaySeconds 30)

/-- `scheduleTTSReminder(type, message, options)`: no-op when reminders are
disabled; otherwise cancel any existing reminder of this type, arm a fresh
timer for the resolved delay and store the `PendingReminder` (the message
text itself is selected only when the timer fires and is abstracted away;
`options.permissionCount || 1` is stored). -/
def scheduleTTSReminder (cfg : Config) (ty : RType) (pc : Nat) (st : PState) : PState :=
  if cfg.enableTTSReminder then
    let d := reminderDelaySeconds cfg ty
    let st1 := cancelPendingReminder ty st
    let pcE := if pc = 0 then 1 else pc
    let tid := st1.nextTimerId
    { st1 with
        timers := st1.timers ++ [⟨tid, st1.now + d * 1000, .reminderMain ty d⟩]
        pendingReminders := alSet st1.pendingReminders ty ⟨tid, st1.now, 0, pcE⟩
        nextTimerId := tid + 1 }
  else st

/-- `smartNotify(type, options)`: play the immediate sound, re-check the
type-specific abort condition, schedule the TTS reminder, and in
`tts-first`/`both` mode speak immediately. -/
def smartNotify (cfg : Config) (ty : RType) (soundFile : Option String)
    (soundLoops : Nat) (hasTtsMessage : Bool) (pc : Nat) (st : PState) : PState :=
  let st1 := match soundFile with
    | some _ => playSoundM cfg ty soundLoops st
    | none => st
  if ty = .idle ∧ st1.lastUserActivityTime > st1.lastSessionIdleTime then st1
  else if ty = .permission ∧ st1.activePermissionId = none then st1
  else
    let st2 := if cfg.enableTTSReminder ∧ hasTtsMessage then
        scheduleTTSReminder cfg ty pc st1
      else st1
    if cfg.notificationMode = .ttsFirst ∨ cfg.notificationMode = .bothMode then
      emitE (.speakImmediate ty) st2
    else st2

/-- Does the ElevenLabs missing-key warning condition of the reminder
callback hold (`ttsEngine === 'elevenlabs'` and the key is absent or
blank)? -/
def elevenKeyMissing (cfg : Config) : Bool :=
  decide (cfg.ttsEngine = "elevenlabs") &&
    (match cfg.elevenLabsApiKey with
     | none => true
     | some k => decide (k.trim = ""))

/-- The initial reminder timer callback of `scheduleTTSReminder` (the
`setTimeout` body at its configured delay).  `throws` says whether the
`tts.speak` call raises; the surrounding `try`/`catch` then deletes the map
entry.  On success the entry is deleted and, when follow-ups are enabled and
`followUpCount + 1 < maxFollowUpReminders`, a single follow-up timer is
armed with delay `delaySeconds * backoffMultiplier ^ (followUpCount + 1)`
seconds and the entry is re-stored with the incremented count. -/
def fireReminderMain (cfg : Config) (throws : Bool) (ty : RType) (d : ℚ)
    (st : PState) : PState :=
  match alGet st.pendingReminders ty with
  | none => st
  | some r =>
    if st.lastUserActivityTime > r.scheduledAt then
      { st with pendingReminders := alErase st.pendingReminders ty }
    else
      let storedCount := if r.permissionCount = 0 then 1 else r.permissionCount
      let st1 := if elevenKeyMissing cfg then toastIf cfg .toastWarning st else st
      if throws then
        { st1 with pendingReminders := alErase st1.pendingReminders ty }
      else
        let st2 := emitE (.speakReminder ty false storedCount) st1
        match alGet st2.pendingReminders ty with
        | none => st2
        | some _ =>
          let st3 := { st2 with pendingReminders := alErase st2.pendingReminders ty }
          if cfg.enableFollowUpReminders then
            let fc := r.followUpCount + 1
            let maxF := jsOrN cfg.maxFollowUpReminders 3
            if fc < maxF then
              let b := jsOrQ cfg.reminderBackoffMultiplier (mkRat 3 2)
              let nd := d * b ^ fc
              let tid := st3.nextTimerId
              { st3 with
                  timers := st3.timers ++ [⟨tid, st3.now + nd * 1000, .reminderFollowUp ty⟩]
                  pendingReminders :=
                    alSet st3.pendingReminders ty ⟨tid, st3.now, fc, storedCount⟩
                  nextTimerId := tid + 1 }
            else st3
          else st3

/-- The follow-up reminder timer callback (`followUpTimeoutId`).  It has no
`try`/`catch` of its own: when `tts.speak` raises (`throws = true`) the
async callback rejects and the trailing `pendingReminders.delete(type)` is
never executed, so the entry survives with a dead timer id. -/
def fireReminderFollowUp (_cfg : Config) (throws : Bool) (ty : RType)
    (st : PState) : PState :=
  match alGet st.pendingReminders ty with
  | none => { st with pendingReminders := alErase st.pendingReminders ty }
  | some r =>
    if st.lastUserActivityTime > r.scheduledAt then
      { st with pendingReminders := alErase st.pendingReminders ty }
    else
      let cnt := if r.permissionCount = 0 then 1 else r.permissionCount
      if throws then st
      else
        let st1 := emitE (.speakReminder ty true cnt) st
        { st1 with pendingReminders := alErase st1.pendingReminders ty }

/-- `processPermissionBatch()`: capture and clear the batch, skip if empty,
set `activePermissionId` to the first id, toast the count, and hand off to
`smartNotify` with the count-aware reminder message (plus the `tts-first`
immediate speech and the final post-handoff cancellation check). -/
def processPermissionBatch (cfg : Config) (st : PState) : PState :=
  let batch := st.pendingPermissionBatch
  let batchCount := batch.length
  let st1 := { st with pendingPermissionBatch := []
                       permissionBatchTimeout := none }
  if batchCount = 0 then st1
  else
    let st2 := { st1 with activePermissionId := batch.head? }
    let st3 := toastIf cfg (.toastBatch batchCount) st2
    if st3.activePermissionId = none then st3
    else
      let loops := if batchCount = 1 then 2 else min 3 batchCount
      let st4 := smartNotify cfg .permission cfg.permissionSound loops true batchCount st3
      let st5 := if cfg.notificationMode = .ttsFirst ∨ cfg.notificationMode = .bothMode then
          emitE (.speakImmediate .permission) st4
        else st4
      if st5.activePermissionId = none then cancelPendingReminder .permission st5
      else st5

/-- Run the callback of a fired timer (the timer itself has already been
removed from the armed set).  `throws` is the speech-exception oracle
applied to the reminder callbacks; the batch-window callback wraps
`processPermissionBatch` in its own `try`/`catch`, which is not
exception-modelled here. -/
def fireTimer (cfg : Config) (throws : Bool) (k : TimerKind) (st : PState) : PState :=
  match k with
  | .reminderMain ty d => fireReminderMain cfg throws ty d st
  | .reminderFollowUp ty => fireReminderFollowUp cfg throws ty st
  | .permissionBatch => processPermissionBatch cfg st

/-- Inbound host events, normalized: the fields the embedded handler reads.
`sessionIdle` carries the `client.session.get` ancestry answer
(`parentID`); `messageUpdated` carries `properties.info.id`, the role and
`properties.info.time.created` (in seconds); `permissionReplied` carries
`permissionID || requestID`. -/
inductive Event where
  | messageUpdated (id : Option String) (role : String) (timeCreated : Option ℚ)
  | permissionReplied (id : Option String)
  | sessionCreated (sessionID : Option String)
  | sessionIdle (sessionID : Option String) (parentID : Option String)
  | permissionAsked (id : Option String)
deriving DecidableEq, Repr

/-- The `message.updated` block: only the first observation of a user
message id counts, and it registers activity (and cancels all reminders)
only when the message was created after the last `session.idle`
(`lastSessionIdleTime > 0 && messageTime && messageTime*1000 >
lastSessionIdleTime`). -/
def handleMessageUpdated (mid : Option String) (role : String)
    (timeCreated : Option ℚ) (st : PState) : PState :=
  match mid with
  | none => st
  | some m =>
    if role = "user" then
      if m ∈ st.seenUserMessageIds then st
      else
        let afterIdle : Bool :=
          match timeCreated with
          | some t =>
              if st.lastSessionIdleTime > 0 ∧ t ≠ 0 ∧ t * 1000 > st.lastSessionIdleTime
              then true else false
          | none => false
        let st1 := { st with seenUserMessageIds := m :: st.seenUserMessageIds }
        if afterIdle then
          cancelAllPendingReminders { st1 with lastUserActivityTime := st1.now }
        else st1
    else st

/-- `permission.replied`, first step: drop the replied id from the pending
batch (if still waiting). -/
def repliedBatchRemove (pid : Option String) (st : PState) : PState :=
  match pid with
  | some p =>
      if p ∈ st.pendingPermissionBatch then
        { st with pendingPermissionBatch :=
            st.pendingPermissionBatch.filter (fun x => x ≠ p) }
      else st
  | none => st

/-- `permission.replied`, second step: cancel the batch-window timer when
the batch has emptied (user responded to all permissions before the window
expired). -/
def repliedBatchCancel (st : PState) : PState :=
  if st.pendingPermissionBatch = [] then
    match st.permissionBatchTimeout with
    | some tid => { st with timers := removeTimer st.timers tid
                            permissionBatchTimeout := none }
    | none => st
  else st

/-- `permission.replied`, third step: clear `activePermissionId` on an id
match (`===`; a `null`/`undefined` pair does not match). -/
def repliedClearActive (pid : Option String) (st : PState) : PState :=
  match st.activePermissionId, pid with
  | some a, some p => if a = p then { st with activePermissionId := none } else st
  | _, _ => st

/-- The `permission.replied` block: drop the replied id from the pending
batch, cancel the batch timer when the batch empties, clear
`activePermissionId` on an id match, register activity and cancel the
permission reminder. -/
def handlePermissionReplied (pid : Option String) (st : PState) : PState :=
  let st3 := repliedClearActive pid (repliedBatchCancel (repliedBatchRemove pid st))
  cancelPendingReminder .permission { st3 with lastUserActivityTime := st3.now }

/-- The `session.created` block: reset all tracking state.  The final
debounce-entry reset is `Modelled from the spec:` §4.1 ("Reset entry for a
session id when that session receives a session-created event"); it is
absent from the embedded `index.js` snapshot and exercised only by the
repository's tests. -/
def handleSessionCreated (sid : Option String) (st : PState) : PState :=
  let st1 := { st with lastUserActivityTime := st.now
                       lastSessionIdleTime := 0
                       activePermissionId := none
                       seenUserMessageIds := [] }
  let st2 := cancelAllPendingReminders st1
  let st3 := { st2 with pendingPermissionBatch := [] }
  let st4 := match st3.permissionBatchTimeout with
    | some tid => { st3 with timers := removeTimer st3.timers tid
                             permissionBatchTimeout := none }
    | none => st3
  match sid with
  | some s => { st4 with idleDebounce := alErase st4.idleDebounce s }
  | none => st4

/-- The `session.idle` block: missing session id or a sub-session (a parent
exists) returns silently; then the debounce gate (`Modelled from the spec:`
§4.1, a fixed 5000 ms window per session id, absent from the embedded
snapshot); an accepted event records the idle transition, toasts, and runs
`smartNotify('idle', …)`. -/
def handleSessionIdle (cfg : Config) (sid : Option String)
    (parentID : Option String) (st : PState) : PState :=
  match sid with
  | none => st
  | some s =>
    if parentID.isSome then st
    else
      let suppressed : Bool :=
        match alGet st.idleDebounce s with
        | some prev => if st.now - prev < 5000 then true else false
        | none => false
      if suppressed then st
      else
        let st1 := { st with idleDebounce := alSet st.idleDebounce s st.now
                             lastSessionIdleTime := st.now }
        let st2 := toastIf cfg .toastIdle st1
        smartNotify cfg .idle cfg.idleSound 1 true 1 st2

/-- The `permission.updated`/`permission.asked` block: append the id to the
batch unless already present (an id-less event appends a
`unknown-<Date.now()>` placeholder unconditionally), then restart the batch
window timer. -/
def handlePermissionAsked (cfg : Config) (pid : Option String) (st : PState) : PState :=
  let st1 := match pid with
    | some p =>
        if p ∈ st.pendingPermissionBatch then st
        else { st with pendingPermissionBatch := st.pendingPermissionBatch ++ [p] }
    | none =>
        { st with pendingPermissionBatch :=
            st.pendingPermissionBatch ++
              ["unknown-" ++ toString st.now.num ++ "-" ++ toString st.now.den] }
  let st2 := match st1.permissionBatchTimeout with
    | some tid => { st1 with timers := removeTimer st1.timers tid }
    | none => st1
  let tid := st2.nextTimerId
  { st2 with
      timers := st2.timers ++
        [⟨tid, st2.now + jsOrQ cfg.permissionBatchWindowMs 800, .permissionBatch⟩]
      permissionBatchTimeout := some tid
      nextTimerId := tid + 1 }

/-- The body of the plugin's `event` function: the source's sequential
`if (event.type === …)` blocks are disjoint in `event.type`, so dispatching
on the event constructor is equivalent. -/
def handleEvent (cfg : Config) (e : Event) (st : PState) : PState :=
  match e with
  | .messageUpdated mid role tc => handleMessageUpdated mid role tc st
  | .permissionReplied pid => handlePermissionReplied pid st
  | .sessionCreated sid => handleSessionCreated sid st
  | .sessionIdle sid parentID => handleSessionIdle cfg sid parentID st
  | .permissionAsked pid => handlePermissionAsked cfg pid st

/-- Timer-order: strictly earlier deadline, ties broken by smaller id
(registration order, matching the event loop). -/
def earlierT (a b : Timer) : Bool :=
  a.fireAt < b.fireAt ∨ (a.fireAt = b.fireAt ∧ a.id < b.id)

/-- The next timer the event loop would run. -/
def findEarliest : List Timer → Option Timer
  | [] => none
  | t :: r =>
    match findEarliest r with
    | none => some t
    | some u => if earlierT u t then some u else some t

/-- Fire every due timer (deadline ≤ `dl`) in event-loop order, consuming
one unit of fuel per callback.  `orc` is the speech-exception oracle,
indexed by timer id. -/
def runTimersUntil (cfg : Config) (orc : Nat → Bool) (dl : ℚ) :
    Nat → PState → PState
  | 0, st => st
  | fuel + 1, st =>
    match findEarliest st.timers with
    | none => st
    | some tm =>
      if tm.fireAt ≤ dl then
        runTimersUntil cfg orc dl fuel
          (fireTimer cfg (orc tm.id) tm.kind
            { st with now := max st.now tm.fireAt
                      timers := removeTimer st.timers tm.id })
      else st

/-- Process a time-stamped external event stream: before each event, run
the timers that come due first, then run the handler at the event's time. -/
def runTrace (cfg : Config) (orc : Nat → Bool) :
    List (ℚ × Event) → Nat → PState → PState
  | [], _, st => st
  | (t, e) :: rest, fuel, st =>
    let st1 := runTimersUntil cfg orc t fuel st
    let st2 := handleEvent cfg e { st1 with now := max st1.now t }
    runTrace cfg orc rest fuel st2

/-- Full system run from plugin instantiation: the event stream, then a
final drain of due timers up to `horizon`. -/
def runSystem (cfg : Config) (orc : Nat → Bool) (trace : List (ℚ × Event))
    (fuel : Nat) (horizon : ℚ) : PState :=
  runTimersUntil cfg orc horizon fuel (runTrace cfg orc trace fuel initState)

/-- Number of occurrences of one effect in a trace. -/
def countEff (e : Effect) (st : PState) : Nat :=
  (st.effects.filter (fun p => p.2 = e)).length

/-- Number of reminder speech calls for a type (any follow-up flag or
count). -/
def countRemSpeak (ty : RType) (st : PState) : Nat :=
  (st.effects.filter (fun p =>
    match p.2 with
    | .speakReminder ty2 _ _ => ty2 = ty
    | _ => false)).length

/-- Is an effect a speech or sound call attributed to type `ty` (the
side effects the cancellation property forbids)? -/
def isSideFor (ty : RType) : Effect → Bool
  | .soundPlayed ty2 _ => ty2 = ty
  | .speakReminder ty2 _ _ => ty2 = ty
  | .speakImmediate ty2 => ty2 = ty
  | _ => false

/-- Number of speech/sound effects attributed to type `ty`. -/
def countSideFor (ty : RType) (st : PState) : Nat :=
  (st.effects.filter (fun p => isSideFor ty p.2)).length

/-- Number of batched-permission toasts carrying count `n`. -/
def countBatchToast (n : Nat) (st : PState) : Nat :=
  countEff (.toastBatch n) st

/-- Is an effect a batched-permission toast (of any count)? -/
def isBatchToast : Effect → Bool
  | .toastBatch _ => true
  | _ => false

/-- No armed timer can produce (directly or transitively) a reminder for
`ty`: no reminder timer of type `ty`, and, when `ty` is `permission`, no
batch-window timer either. -/
def noSourceFor (ty : RType) (st : PState) : Prop :=
  ∀ tm ∈ st.timers, remTy tm.kind ≠ some ty ∧
    (ty = .permission → tm.kind ≠ .permissionBatch)

/-- Effect count under an arbitrary Boolean effect predicate. -/
def countEffP (f : Effect → Bool) (st : PState) : Nat :=
  (st.effects.filter (fun p => f p.2)).length

/-- Does this timer's stored cross-reference agree with the state: a
reminder timer must be the very handle its type's `pendingReminders` entry
stores, and a batch-window timer must be the stored
`permissionBatchTimeout` handle. -/
def timerRefOk (st : PState) (tm : Timer) : Bool :=
  match remTy tm.kind with
  | some ty =>
      match alGet st.pendingReminders ty with
      | some r => r.timeoutId == tm.id
      | none => false
  | none => st.permissionBatchTimeout == some tm.id

/-- Every armed timer is consistently cross-referenced by the state.  This
holds in every reachable state; session reset and reply cancellation rely
on it to clear every relevant timer by its stored handle. -/
@[reducible] def timersRefInv (st : PState) : Prop :=
  ∀ tm ∈ st.timers, timerRefOk st tm = true

/-- A state with nothing armed and nothing batched (plugin start, or right
after a session reset). -/
def quiescent (st : PState) : Prop :=
  st.timers = [] ∧ st.pendingPermissionBatch = [] ∧
    st.permissionBatchTimeout = none ∧ st.pendingReminders = [] ∧
    st.activePermissionId = none

/-- The state shape maintained while a permission batch is being collected
with no reminder armed: either nothing is armed and the batch is empty, or
exactly one batch-window timer is armed, its handle is the stored
`permissionBatchTimeout`, and the batch is non-empty. -/
def batchInv (st : PState) : Prop :=
  st.pendingReminders = [] ∧
  ((st.permissionBatchTimeout = none ∧ st.timers = [] ∧
      st.pendingPermissionBatch = []) ∨
   (∃ (tid : Nat) (fa : ℚ), st.permissionBatchTimeout = some tid ∧
      st.timers = [⟨tid, fa, .permissionBatch⟩] ∧
      st.pendingPermissionBatch ≠ []))

/-- The trace shape of the batch-coalescing scenario: every event is a
permission request or reply, arrives no earlier than the previous state's
clock, and strictly before every armed timer's deadline — so the batch
window, restarted by each request, never elapses mid-sequence. -/
def fitsWindow (cfg : Config) : PState → List (ℚ × Event) → Bool
  | _, [] => true
  | st, (t, e) :: rest =>
    decide (st.now ≤ t) && st.timers.all (fun tm => decide (t < tm.fireAt)) &&
      (match e with
       | .permissionAsked _ => true
       | .permissionReplied _ => true
       | _ => false) &&
      fitsWindow cfg (handleEvent cfg e { st with now := t }) rest

/-- Failing-input configuration for the backoff claim: initial idle delay
1 s, `maxFollowUpReminders = 3`, `reminderBackoffMultiplier = 2`,
follow-up reminders enabled. -/
def backoffCfg : Config :=
  { enableTTSReminder := true
    enableFollowUpReminders := true
    maxFollowUpReminders := some 3
    reminderBackoffMultiplier := some 2
    idleReminderDelaySeconds := some 1
    enableSound := false
    enableToast := true
    notificationMode := .soundFirst }

/-- One accepted idle event at t = 0, never answered by the user. -/
def backoffTrace : List (ℚ × Event) := [(0, .sessionIdle (some "s1") none)]

/-- Oracle: no `tts.speak` call throws. -/
def noThrowOrc : Nat → Bool := fun _ => false

/-- Oracle: the `tts.speak` call inside the callback of timer 1 throws (in
the backoff scenario timer 1 is the follow-up reminder timer). -/
def followUpThrowOrc : Nat → Bool := fun tid => tid = 1

/-- Oracle: the `tts.speak` call inside the callback of timer 0 throws (in
the backoff scenario timer 0 is the initial reminder timer). -/
def mainThrowOrc : Nat → Bool := fun tid => tid = 0

/-- A JavaScript exception value as the catch blocks use it (an `Error`
carrying a `message`; nullish thrown values are outside the model). -/
structure JsErr where
  message : String

/-- `fs.appendFileSync` inside `debugLog`: may itself throw (disk or
permission errors), as directed by `writeFails`. -/
def appendLogE (writeFails : Bool) (_msg : String) : Except JsErr Unit :=
  if writeFails then Except.error ⟨"append failed"⟩ else Except.ok ()

/-- `debugLog`: its own `try { … } catch (e) {}` swallows any write
error. -/
def debugLogE (writeFails : Bool) (msg : String) : Except JsErr Unit :=
  match appendLogE writeFails msg with
  | Except.ok _ => Except.ok ()
  | Except.error _ => Except.ok ()

/-- The plugin's `event` entry point as its caller observes it: the entire
handler body runs inside `try { … } catch (e) { debugLog(…) }`.  `body` is
the outcome of the try-block — `Except.ok (handleEvent cfg e st)` for a
non-throwing run, any `Except.error` for a run in which some awaited call
threw — and the catch block logs the error's message through
`debugLogE`. -/
def pluginEvent (body : Except JsErr PState) (writeFails : Bool) (st : PState) :
    Except JsErr PState :=
  match body with
  | Except.ok s => Except.ok s
  | Except.error err =>
      match debugLogE writeFails ("event handler error: " ++ err.message) with
      | Except.ok _ => Except.ok st
      | Except.error e2 => Except.error e2

end SVN

namespace SVNWebhook

/-- `MAX_QUEUE_SIZE` of `util/webhook.js`. -/
def MAX_QUEUE_SIZE : Nat := 100

/-- What the caller hands `enqueueWebhook` (url, payload, options — the
payload and options are opaque here). -/
structure WReq where
  url : String
  payloadTag : Nat
deriving DecidableEq, Repr

/-- A queued item: the request plus the `queuedAt` stamp added on
enqueue. -/
structure WItem where
  req : WReq
  queuedAt : ℚ
deriving DecidableEq, Repr

/-- `enqueueWebhook(item)`: when the queue already holds `MAX_QUEUE_SIZE`
items, `shift()` the oldest out first; then push the stamped item and
return `true` (the processing kick-off does not change the queue before
returning). -/
def enqueueWebhook (now : ℚ) (q : List WItem) (r : WReq) : Bool × List WItem :=
  let q1 := if MAX_QUEUE_SIZE ≤ q.length then q.tail else q
  (true, q1 ++ [⟨r, now⟩])

/-- One `processQueue` loop iteration takes the head item off the queue
(`shift()`). -/
def dequeueStep (q : List WItem) : List WItem := q.tail

end SVNWebhook

namespace SVN

/-! ### Association-list lemmas -/

theorem alGet_alErase_self {κ ν : Type} [DecidableEq κ] (m : List (κ × ν)) (k : κ) :
    alGet (alErase m k) k = none := by
  induction m with
  | nil => rfl
  | cons p r ih =>
    obtain ⟨a, b⟩ := p
    by_cases h : a = k
    · simp [alErase, h, ih]
    · simp [alErase, alGet, h, ih]

theorem alGet_alErase_ne {κ ν : Type} [DecidableEq κ] (m : List (κ × ν)) (k k' : κ)
    (h : k' ≠ k) : alGet (alErase m k) k' = alGet m k' := by
  induction m with
  | nil => rfl
  | cons p r ih =>
    obtain ⟨a, b⟩ := p
    by_cases ha : a = k
    · subst ha
      simp [alErase, alGet, Ne.symm h, ih]
    · by_cases hb : a = k'
      · subst hb
        simp [alErase, alGet, ha]
      · simp [alErase, alGet, ha, hb, ih]

theorem alGet_alSet_self {κ ν : Type} [DecidableEq κ] (m : List (κ × ν)) (k : κ) (v : ν) :
    alGet (alSet m k v) k = some v := by
  unfold alSet
  induction m with
  | nil => simp [alGet]
  | cons p r ih =>
    obtain ⟨a, b⟩ := p
    by_cases h : a = k
    · simpa [alErase, h] using ih
    · simpa [alErase, alGet, h] using ih

theorem alGet_alSet_ne {κ ν : Type} [DecidableEq κ] (m : List (κ × ν)) (k k' : κ) (v : ν)
    (h : k' ≠ k) : alGet (alSet m k v) k' = alGet m k' := by
  unfold alSet
  induction m with
  | nil => simp [alGet, Ne.symm h]
  | cons p r ih =>
    obtain ⟨a, b⟩ := p
    by_cases ha : a = k
    · subst ha
      simpa [alErase, alGet, Ne.symm h] using ih
    · by_cases hb : a = k'
      · subst hb
        simp [alErase, alGet, ha]
      · simpa [alErase, alGet, ha, hb] using ih

theorem mem_alErase {κ ν : Type} [DecidableEq κ] (m : List (κ × ν)) (k : κ)
    (p : κ × ν) : p ∈ alErase m k ↔ p ∈ m ∧ p.1 ≠ k := by
  induction m with
  | nil => simp [alErase]
  | cons q r ih =>
    obtain ⟨a, b⟩ := q
    by_cases h : a = k
    · subst h
      rw [show alErase ((a, b) :: r) a = alErase r a from by simp [alErase], ih]
      constructor
      · rintro ⟨hm, hne⟩
        exact ⟨List.mem_cons_of_mem _ hm, hne⟩
      · rintro ⟨hm, hne⟩
        rcases List.mem_cons.mp hm with hab | hm2
        · exact absurd (by rw [hab]) hne
        · exact ⟨hm2, hne⟩
    · rw [show alErase ((a, b) :: r) k = (a, b) :: alErase r k from by simp [alErase, h]]
      constructor
      · intro hm
        rcases List.mem_cons.mp hm with hab | hm2
        · exact ⟨by rw [hab]; exact List.mem_cons_self _ _, by rw [hab]; exact h⟩
        · obtain ⟨hm3, hne⟩ := ih.mp hm2
          exact ⟨List.mem_cons_of_mem _ hm3, hne⟩
      · rintro ⟨hm, hne⟩
        rcases List.mem_cons.mp hm with hab | hm2
        · rw [hab]; exact List.mem_cons_self _ _
        · exact List.mem_cons_of_mem _ (ih.mpr ⟨hm2, hne⟩)

/-- Keys of an association list. -/
def alKeys {κ ν : Type} (m : List (κ × ν)) : List κ := m.map Prod.fst

theorem alKeys_nodup_alErase {κ ν : Type} [DecidableEq κ] (m : List (κ × ν)) (k : κ)
    (h : (alKeys m).Nodup) : (alKeys (alErase m k)).Nodup := by
  induction m with
  | nil => simp [alErase, alKeys]
  | cons p r ih =>
    obtain ⟨a, b⟩ := p
    simp only [alKeys, List.map_cons, List.nodup_cons] at h
    by_cases ha : a = k
    · simpa [alErase, ha] using ih h.2
    · simp only [alErase, if_neg ha, alKeys, List.map_cons, List.nodup_cons]
      refine ⟨fun hmem => ?_, ih h.2⟩
      have : a ∈ alKeys r := by
        rcases List.mem_map.mp hmem with ⟨q, hq, hqa⟩
        exact List.mem_map.mpr ⟨q, ((mem_alErase r k q).mp hq).1, hqa⟩
      exact h.1 this

theorem not_mem_alKeys_alErase {κ ν : Type} [DecidableEq κ] (m : List (κ × ν)) (k : κ) :
    k ∉ alKeys (alErase m k) := by
  intro hmem
  rcases List.mem_map.mp hmem with ⟨q, hq, hqk⟩
  exact ((mem_alErase m k q).mp hq).2 hqk

theorem alKeys_nodup_alSet {κ ν : Type} [DecidableEq κ] (m : List (κ × ν)) (k : κ) (v : ν)
    (h : (alKeys m).Nodup) : (alKeys (alSet m k v)).Nodup := by
  unfold alSet
  have h1 := alKeys_nodup_alErase m k h
  have h2 := not_mem_alKeys_alErase m k
  simp only [alKeys, List.map_append, List.map_cons, List.map_nil]
  rw [List.nodup_append]
  refine ⟨h1, List.nodup_singleton _, fun x hx => ?_⟩
  simp only [List.mem_singleton]
  intro hxk
  subst hxk
  exact h2 hx

theorem alGet_isSome_of_mem {κ ν : Type} [DecidableEq κ] (m : List (κ × ν))
    (p : κ × ν) (h : p ∈ m) : alGet m p.1 ≠ none := by
  induction m with
  | nil => simp at h
  | cons q r ih =>
    obtain ⟨a, b⟩ := q
    rcases List.mem_cons.mp h with rfl | hm
    · simp [alGet]
    · by_cases ha : a = p.1
      · simp [alGet, ha]
      · simpa [alGet, ha] using ih hm

/-! ### Timer-list lemmas -/

theorem mem_removeTimer (ts : List Timer) (tid : Nat) (tm : Timer) :
    tm ∈ removeTimer ts tid ↔ tm ∈ ts ∧ tm.id ≠ tid := by
  simp [removeTimer, List.mem_filter]

theorem findEarliest_mem (ts : List Timer) (tm : Timer)
    (h : findEarliest ts = some tm) : tm ∈ ts := by
  induction ts generalizing tm with
  | nil => simp [findEarliest] at h
  | cons t r ih =>
    simp only [findEarliest] at h
    cases hr : findEarliest r with
    | none =>
      simp only [hr] at h
      cases h
      exact List.mem_cons_self _ _
    | some u =>
      simp only [hr] at h
      by_cases hc : earlierT u t
      · rw [if_pos hc] at h
        cases h
        exact List.mem_cons_of_mem _ (ih _ hr)
      · rw [if_neg hc] at h
        cases h
        exact List.mem_cons_self _ _

end SVN

section
-- The Batteries rational-number kernels are marked irreducible, which blocks
-- elaborator-side evaluation of concrete runs; restore default reducibility
-- for them within this development.
attribute [local semireducible] Rat.mul Rat.add Rat.sub

/-! ### Claim theorems -/

/-- C6: a user-message id is classified as new exactly on its first
observation (it is then recorded in `seenUserMessageIds`), and a
`message.updated` event carrying an already-seen id leaves the state —
activity time, pending reminders, timers, everything — completely
unchanged, so repeated updates to one id can cancel reminders at most
once. -/
theorem claim_C6 (cfg : SVN.Config) (st : SVN.PState) (mid role : String)
    (tc : Option ℚ) :
    (mid ∈ st.seenUserMessageIds →
      SVN.handleEvent cfg (.messageUpdated (some mid) role tc) st = st) ∧
    (role = "user" → mid ∉ st.seenUserMessageIds →
      mid ∈ (SVN.handleEvent cfg
        (.messageUpdated (some mid) role tc) st).seenUserMessageIds) := by
  constructor
  · intro hseen
    by_cases hr : role = "user"
    · simp [SVN.handleEvent, SVN.handleMessageUpdated, hr, hseen]
    · simp [SVN.handleEvent, SVN.handleMessageUpdated, hr]
  · intro hr hnew
    simp only [SVN.handleEvent, SVN.handleMessageUpdated, if_pos hr, if_neg hnew]
    split
    · simp [SVN.cancelAllPendingReminders]
    · simp

/-- Witness for C6 at a concrete seen id and state. -/
theorem claim_C6_witness :
    (("m1" : String) ∈
      ({ SVN.initState with seenUserMessageIds := ["m1"] } : SVN.PState).seenUserMessageIds) ∧
    SVN.handleEvent {} (.messageUpdated (some "m1") "user" (some 7))
        { SVN.initState with seenUserMessageIds := ["m1"] } =
      { SVN.initState with seenUserMessageIds := ["m1"] } :=
  ⟨by decide,
   (claim_C6 {} { SVN.initState with seenUserMessageIds := ["m1"] } "m1" "user"
      (some 7)).1 (by decide)⟩

/-- C9: no exception crosses the `event` boundary: whatever the try-block's
outcome — a normal state or any thrown error — and whether or not the
catch-block's debug logging can write, `pluginEvent` completes normally
(returns `Except.ok`); and a non-throwing run returns exactly the handler's
state. -/
theorem claim_C9 (cfg : SVN.Config) (e : SVN.Event) (st : SVN.PState)
    (body : Except SVN.JsErr SVN.PState) (w : Bool) :
    (∃ s, SVN.pluginEvent body w st = Except.ok s) ∧
    SVN.pluginEvent (Except.ok (SVN.handleEvent cfg e st)) w st =
      Except.ok (SVN.handleEvent cfg e st) := by
  constructor
  · cases body with
    | ok s => exact ⟨s, rfl⟩
    | error err => cases w <;> exact ⟨st, rfl⟩
  · rfl

/-- C10: the webhook queue is bounded: `enqueueWebhook` always returns
`true`; on a full queue (100 items) the oldest item is shifted out before
the new one is appended, keeping the length at 100; on a non-full queue the
item is appended; dequeuing only shortens the queue.  Hence a queue that
respected the bound still respects it after the call. -/
theorem claim_C10 (now : ℚ) (q : List SVNWebhook.WItem) (r : SVNWebhook.WReq)
    (hlen : q.length ≤ SVNWebhook.MAX_QUEUE_SIZE) :
    (SVNWebhook.enqueueWebhook now q r).1 = true ∧
    (SVNWebhook.enqueueWebhook now q r).2.length ≤ SVNWebhook.MAX_QUEUE_SIZE ∧
    (q.length = SVNWebhook.MAX_QUEUE_SIZE →
      (SVNWebhook.enqueueWebhook now q r).2 = q.tail ++ [⟨r, now⟩]) ∧
    (q.length < SVNWebhook.MAX_QUEUE_SIZE →
      (SVNWebhook.enqueueWebhook now q r).2 = q ++ [⟨r, now⟩]) ∧
    (SVNWebhook.dequeueStep q).length ≤ SVNWebhook.MAX_QUEUE_SIZE := by
  unfold SVNWebhook.enqueueWebhook SVNWebhook.dequeueStep SVNWebhook.MAX_QUEUE_SIZE at *
  refine ⟨rfl, ?_, ?_, ?_, ?_⟩
  · by_cases h : 100 ≤ q.length
    · simp only [if_pos h, List.length_append, List.length_tail, List.length_cons,
        List.length_nil]
      omega
    · simp only [if_neg h, List.length_append, List.length_cons, List.length_nil]
      omega
  · intro he
    simp [he]
  · intro hlt
    have h : ¬ (100 ≤ q.length) := by omega
    simp [h]
  · have := List.length_tail q
    omega

/-- Witness for C10 on a concrete small queue. -/
theorem claim_C10_witness :
    ([(⟨⟨"u", 0⟩, 1⟩ : SVNWebhook.WItem)].length ≤ SVNWebhook.MAX_QUEUE_SIZE) ∧
    (SVNWebhook.enqueueWebhook 5 [⟨⟨"u", 0⟩, 1⟩] ⟨"v", 1⟩).1 = true :=
  ⟨by decide, (claim_C10 5 [⟨⟨"u", 0⟩, 1⟩] ⟨"v", 1⟩ (by decide)).1⟩


namespace SVN

/-- With no armed timers, draining is the identity: nothing can ever fire
again without a new external event. -/
theorem runTimersUntil_eq_of_timers_nil (cfg : Config) (orc : Nat → Bool)
    (dl : ℚ) (fuel : Nat) (st : PState) (h : st.timers = []) :
    runTimersUntil cfg orc dl fuel st = st := by
  cases fuel with
  | zero => rfl
  | succ n => simp [runTimersUntil, h, findEarliest]

end SVN

/-- C1 (refuting evaluation, k = 3): with `maxFollowUpReminders = 3`,
`reminderBackoffMultiplier = 2` and an initial idle delay of 1 s, an
unanswered idle notification's reminder fires exactly twice — at 1000 ms
and 3000 ms, i.e. with inter-reminder delays `d` and `d·b` — after which no
timer and no `PendingReminder` remains and no further drain can ever change
the state.  The claimed third firing (delay `d·b²`, `k = 3` total firings)
never occurs, because the follow-up timer callback deletes the entry
without re-arming. -/
theorem claim_C1 :
    SVN.jsOrN SVN.backoffCfg.maxFollowUpReminders 3 = 3 ∧
    (SVN.runSystem SVN.backoffCfg SVN.noThrowOrc SVN.backoffTrace 10 1000000).effects =
      [(0, .toastIdle), (1000, .speakReminder .idle false 1),
       (3000, .speakReminder .idle true 1)] ∧
    SVN.countRemSpeak .idle
      (SVN.runSystem SVN.backoffCfg SVN.noThrowOrc SVN.backoffTrace 10 1000000) = 2 ∧
    (SVN.runSystem SVN.backoffCfg SVN.noThrowOrc SVN.backoffTrace 10 1000000).timers = [] ∧
    (SVN.runSystem SVN.backoffCfg SVN.noThrowOrc SVN.backoffTrace 10 1000000).pendingReminders = [] ∧
    (∀ orc2 dl fuel,
      SVN.runTimersUntil SVN.backoffCfg orc2 dl fuel
          (SVN.runSystem SVN.backoffCfg SVN.noThrowOrc SVN.backoffTrace 10 1000000) =
        SVN.runSystem SVN.backoffCfg SVN.noThrowOrc SVN.backoffTrace 10 1000000) := by
  refine ⟨by decide, by decide, by decide, by decide, by decide, ?_⟩
  intro orc2 dl fuel
  exact SVN.runTimersUntil_eq_of_timers_nil _ _ _ _ _ (by decide)

/-- C5 (refuting evaluation): an exception inside the *initial* reminder
timer callback is caught at the timer boundary and the entry deleted (last
two conjuncts), but an exception during the follow-up reminder callback's
speech is not — afterwards the `idle` entry is still stored (timeout id 1,
a timer that no longer exists) while the timer list is empty, and stays so
under any further drain: the type is left permanently armed with a dead
timer. -/
theorem claim_C5 :
    (SVN.runSystem SVN.backoffCfg SVN.followUpThrowOrc SVN.backoffTrace 10 1000000).pendingReminders =
      [(.idle, ⟨1, 1000, 1, 1⟩)] ∧
    (SVN.runSystem SVN.backoffCfg SVN.followUpThrowOrc SVN.backoffTrace 10 1000000).timers = [] ∧
    (∀ orc2 dl fuel,
      SVN.runTimersUntil SVN.backoffCfg orc2 dl fuel
          (SVN.runSystem SVN.backoffCfg SVN.followUpThrowOrc SVN.backoffTrace 10 1000000) =
        SVN.runSystem SVN.backoffCfg SVN.followUpThrowOrc SVN.backoffTrace 10 1000000) ∧
    (SVN.runSystem SVN.backoffCfg SVN.mainThrowOrc SVN.backoffTrace 10 1000000).pendingReminders = [] ∧
    (SVN.runSystem SVN.backoffCfg SVN.mainThrowOrc SVN.backoffTrace 10 1000000).timers = [] := by
  refine ⟨by decide, by decide, ?_, by decide, by decide⟩
  intro orc2 dl fuel
  exact SVN.runTimersUntil_eq_of_timers_nil _ _ _ _ _ (by decide)


namespace SVN

/-! ### Effect-count and frame lemmas for the state operations -/

theorem countEffP_emitE (f : Effect → Bool) (e : Effect) (st : PState) :
    countEffP f (emitE e st) = countEffP f st + (if f e then 1 else 0) := by
  by_cases h : f e <;> simp [countEffP, emitE, h]

theorem countEffP_toastIf (f : Effect → Bool) (cfg : Config) (e : Effect) (st : PState)
    (h : f e = false) : countEffP f (toastIf cfg e st) = countEffP f st := by
  unfold toastIf
  split
  · simp [countEffP_emitE, h]
  · rfl

theorem countEffP_playSoundM (f : Effect → Bool) (cfg : Config) (ty : RType)
    (loops : Nat) (st : PState) (h : f (.soundPlayed ty loops) = false) :
    countEffP f (playSoundM cfg ty loops st) = countEffP f st := by
  unfold playSoundM
  split
  · simp [countEffP_emitE, h]
  · rfl

theorem effects_cancelPendingReminder (ty : RType) (st : PState) :
    (cancelPendingReminder ty st).effects = st.effects := by
  unfold cancelPendingReminder
  split <;> rfl

theorem effects_cancelAllPendingReminders (st : PState) :
    (cancelAllPendingReminders st).effects = st.effects := rfl

theorem effects_scheduleTTSReminder (cfg : Config) (ty : RType) (pc : Nat) (st : PState) :
    (scheduleTTSReminder cfg ty pc st).effects = st.effects := by
  unfold scheduleTTSReminder
  split
  · simp [effects_cancelPendingReminder]
  · rfl

theorem countEffP_scheduleTTSReminder (f : Effect → Bool) (cfg : Config) (ty : RType)
    (pc : Nat) (st : PState) :
    countEffP f (scheduleTTSReminder cfg ty pc st) = countEffP f st := by
  unfold countEffP
  rw [effects_scheduleTTSReminder]

theorem countEffP_smartNotify (f : Effect → Bool) (cfg : Config) (ty : RType)
    (sf : Option String) (loops : Nat) (htts : Bool) (pc : Nat) (st : PState)
    (h1 : f (.soundPlayed ty loops) = false) (h2 : f (.speakImmediate ty) = false) :
    countEffP f (smartNotify cfg ty sf loops htts pc st) = countEffP f st := by
  cases sf <;> simp only [smartNotify] <;> (repeat' split) <;>
    simp [countEffP_emitE, countEffP_scheduleTTSReminder, countEffP_playSoundM, h1, h2]

end SVN


namespace SVN

theorem countEffP_cancelPendingReminder (f : Effect → Bool) (ty : RType) (st : PState) :
    countEffP f (cancelPendingReminder ty st) = countEffP f st := by
  unfold countEffP
  rw [effects_cancelPendingReminder]

theorem countEffP_cancelAllPendingReminders (f : Effect → Bool) (st : PState) :
    countEffP f (cancelAllPendingReminders st) = countEffP f st := rfl

/-- Effects the initial reminder callback can add: the ElevenLabs warning
toast and the (non-follow-up) reminder speech for its type. -/
theorem countEffP_fireReminderMain (f : Effect → Bool) (cfg : Config) (throws : Bool)
    (ty : RType) (d : ℚ) (st : PState)
    (hW : f .toastWarning = false) (hR : ∀ c, f (.speakReminder ty false c) = false) :
    countEffP f (fireReminderMain cfg throws ty d st) = countEffP f st := by
  simp only [fireReminderMain]
  (repeat' split) <;>
    (try simp [countEffP_emitE, countEffP_toastIf, hW, hR]) <;>
    (try simp [countEffP, toastIf, emitE, List.filter_append, hW, hR]) <;>
    (try (split_ifs <;> simp [List.filter_append, hW, hR]))

/-- Effects the follow-up reminder callback can add: the follow-up reminder
speech for its type. -/
theorem countEffP_fireReminderFollowUp (f : Effect → Bool) (cfg : Config) (throws : Bool)
    (ty : RType) (st : PState)
    (hR : ∀ c, f (.speakReminder ty true c) = false) :
    countEffP f (fireReminderFollowUp cfg throws ty st) = countEffP f st := by
  simp only [fireReminderFollowUp]
  (repeat' split) <;>
    (try simp [countEffP_emitE, hR]) <;>
    (try simp [countEffP, emitE, List.filter_append, hR])

/-- Effects the batch-window callback can add: the batched toast (with the
captured batch's length, when the batch is non-empty and toasts are
enabled), permission-tagged sound and immediate permission speech. -/
theorem countEffP_processPermissionBatch (f : Effect → Bool) (cfg : Config) (st : PState)
    (hS : ∀ l, f (.soundPlayed .permission l) = false)
    (hI : f (.speakImmediate .permission) = false) :
    countEffP f (processPermissionBatch cfg st) = countEffP f st +
      (if cfg.enableToast = true ∧ st.pendingPermissionBatch ≠ [] ∧
          f (.toastBatch st.pendingPermissionBatch.length) = true then 1 else 0) := by
  rcases hb : st.pendingPermissionBatch with _ | ⟨x, xs⟩
  · simp only [processPermissionBatch, hb]
    simp [countEffP]
  · simp only [processPermissionBatch, toastIf, hb]
    (repeat' split) <;>
      (try simp_all [countEffP_emitE, countEffP_smartNotify,
        countEffP_cancelPendingReminder, hS, hI]) <;>
      (try simp_all [countEffP])

end SVN


namespace SVN

/-! ### Field-frame simp lemmas for the state operations -/

variable {cfg : Config} {st : PState} {e : Effect} {ty : RType} {loops pc : Nat}
variable {sf : Option String} {htts throws : Bool} {d : ℚ} {k : TimerKind}

@[simp] theorem emitE_now : (emitE e st).now = st.now := rfl
@[simp] theorem emitE_pendingReminders : (emitE e st).pendingReminders = st.pendingReminders := rfl
@[simp] theorem emitE_lastUserActivityTime : (emitE e st).lastUserActivityTime = st.lastUserActivityTime := rfl
@[simp] theorem emitE_seenUserMessageIds : (emitE e st).seenUserMessageIds = st.seenUserMessageIds := rfl
@[simp] theorem emitE_lastSessionIdleTime : (emitE e st).lastSessionIdleTime = st.lastSessionIdleTime := rfl
@[simp] theorem emitE_activePermissionId : (emitE e st).activePermissionId = st.activePermissionId := rfl
@[simp] theorem emitE_pendingPermissionBatch : (emitE e st).pendingPermissionBatch = st.pendingPermissionBatch := rfl
@[simp] theorem emitE_permissionBatchTimeout : (emitE e st).permissionBatchTimeout = st.permissionBatchTimeout := rfl
@[simp] theorem emitE_timers : (emitE e st).timers = st.timers := rfl
@[simp] theorem emitE_nextTimerId : (emitE e st).nextTimerId = st.nextTimerId := rfl
@[simp] theorem emitE_idleDebounce : (emitE e st).idleDebounce = st.idleDebounce := rfl
@[simp] theorem emitE_effects : (emitE e st).effects = st.effects ++ [(st.now, e)] := rfl
@[simp] theorem toastIf_now : (toastIf cfg e st).now = st.now := by unfold toastIf; split <;> rfl
@[simp] theorem toastIf_pendingReminders : (toastIf cfg e st).pendingReminders = st.pendingReminders := by unfold toastIf; split <;> rfl
@[simp] theorem toastIf_lastUserActivityTime : (toastIf cfg e st).lastUserActivityTime = st.lastUserActivityTime := by unfold toastIf; split <;> rfl
@[simp] theorem toastIf_seenUserMessageIds : (toastIf cfg e st).seenUserMessageIds = st.seenUserMessageIds := by unfold toastIf; split <;> rfl
@[simp] theorem toastIf_lastSessionIdleTime : (toastIf cfg e st).lastSessionIdleTime = st.lastSessionIdleTime := by unfold toastIf; split <;> rfl
@[simp] theorem toastIf_activePermissionId : (toastIf cfg e st).activePermissionId = st.activePermissionId := by unfold toastIf; split <;> rfl
@[simp] theorem toastIf_pendingPermissionBatch : (toastIf cfg e st).pendingPermissionBatch = st.pendingPermissionBatch := by unfold toastIf; split <;> rfl
@[simp] theorem toastIf_permissionBatchTimeout : (toastIf cfg e st).permissionBatchTimeout = st.permissionBatchTimeout := by unfold toastIf; split <;> rfl
@[simp] theorem toastIf_timers : (toastIf cfg e st).timers = st.timers := by unfold toastIf; split <;> rfl
@[simp] theorem toastIf_nextTimerId : (toastIf cfg e st).nextTimerId = st.nextTimerId := by unfold toastIf; split <;> rfl
@[simp] theorem toastIf_idleDebounce : (toastIf cfg e st).idleDebounce = st.idleDebounce := by unfold toastIf; split <;> rfl
@[simp] theorem playSoundM_now : (playSoundM cfg ty loops st).now = st.now := by unfold playSoundM; split <;> rfl
@[simp] theorem playSoundM_pendingReminders : (playSoundM cfg ty loops st).pendingReminders = st.pendingReminders := by unfold playSoundM; split <;> rfl
@[simp] theorem playSoundM_lastUserActivityTime : (playSoundM cfg ty loops st).lastUserActivityTime = st.lastUserActivityTime := by unfold playSoundM; split <;> rfl
@[simp] theorem playSoundM_seenUserMessageIds : (playSoundM cfg ty loops st).seenUserMessageIds = st.seenUserMessageIds := by unfold playSoundM; split <;> rfl
@[simp] theorem playSoundM_lastSessionIdleTime : (playSoundM cfg ty loops st).lastSessionIdleTime = st.lastSessionIdleTime := by unfold playSoundM; split <;> rfl
@[simp] theorem playSoundM_activePermissionId : (playSoundM cfg ty loops st).activePermissionId = st.activePermissionId := by unfold playSoundM; split <;> rfl
@[simp] theorem playSoundM_pendingPermissionBatch : (playSoundM cfg ty loops st).pendingPermissionBatch = st.pendingPermissionBatch := by unfold playSoundM; split <;> rfl
@[simp] theorem playSoundM_permissionBatchTimeout : (playSoundM cfg ty loops st).permissionBatchTimeout = st.permissionBatchTimeout := by unfold playSoundM; split <;> rfl
@[simp] theorem playSoundM_timers : (playSoundM cfg ty loops st).timers = st.timers := by unfold playSoundM; split <;> rfl
@[simp] theorem playSoundM_nextTimerId : (playSoundM cfg ty loops st).nextTimerId = st.nextTimerId := by unfold playSoundM; split <;> rfl
@[simp] theorem playSoundM_idleDebounce : (playSoundM cfg ty loops st).idleDebounce = st.idleDebounce := by unfold playSoundM; split <;> rfl
@[simp] theorem cancelPendingReminder_now : (cancelPendingReminder ty st).now = st.now := by unfold cancelPendingReminder; split <;> rfl
@[simp] theorem cancelPendingReminder_lastUserActivityTime : (cancelPendingReminder ty st).lastUserActivityTime = st.lastUserActivityTime := by unfold cancelPendingReminder; split <;> rfl
@[simp] theorem cancelPendingReminder_seenUserMessageIds : (cancelPendingReminder ty st).seenUserMessageIds = st.seenUserMessageIds := by unfold cancelPendingReminder; split <;> rfl
@[simp] theorem cancelPendingReminder_lastSessionIdleTime : (cancelPendingReminder ty st).lastSessionIdleTime = st.lastSessionIdleTime := by unfold cancelPendingReminder; split <;> rfl
@[simp] theorem cancelPendingReminder_activePermissionId : (cancelPendingReminder ty st).activePermissionId = st.activePermissionId := by unfold cancelPendingReminder; split <;> rfl
@[simp] theorem cancelPendingReminder_pendingPermissionBatch : (cancelPendingReminder ty st).pendingPermissionBatch = st.pendingPermissionBatch := by unfold cancelPendingReminder; split <;> rfl
@[simp] theorem cancelPendingReminder_permissionBatchTimeout : (cancelPendingReminder ty st).permissionBatchTimeout = st.permissionBatchTimeout := by unfold cancelPendingReminder; split <;> rfl
@[simp] theorem cancelPendingReminder_nextTimerId : (cancelPendingReminder ty st).nextTimerId = st.nextTimerId := by unfold cancelPendingReminder; split <;> rfl
@[simp] theorem cancelPendingReminder_idleDebounce : (cancelPendingReminder ty st).idleDebounce = st.idleDebounce := by unfold cancelPendingReminder; split <;> rfl
@[simp] theorem cancelPendingReminder_effects : (cancelPendingReminder ty st).effects = st.effects := by unfold cancelPendingReminder; split <;> rfl
@[simp] theorem cancelAllPendingReminders_now : (cancelAllPendingReminders st).now = st.now := rfl
@[simp] theorem cancelAllPendingReminders_lastUserActivityTime : (cancelAllPendingReminders st).lastUserActivityTime = st.lastUserActivityTime := rfl
@[simp] theorem cancelAllPendingReminders_seenUserMessageIds : (cancelAllPendingReminders st).seenUserMessageIds = st.seenUserMessageIds := rfl
@[simp] theorem cancelAllPendingReminders_lastSessionIdleTime : (cancelAllPendingReminders st).lastSessionIdleTime = st.lastSessionIdleTime := rfl
@[simp] theorem cancelAllPendingReminders_activePermissionId : (cancelAllPendingReminders st).activePermissionId = st.activePermissionId := rfl
@[simp] theorem cancelAllPendingReminders_pendingPermissionBatch : (cancelAllPendingReminders st).pendingPermissionBatch = st.pendingPermissionBatch := rfl
@[simp] theorem cancelAllPendingReminders_permissionBatchTimeout : (cancelAllPendingReminders st).permissionBatchTimeout = st.permissionBatchTimeout := rfl
@[simp] theorem cancelAllPendingReminders_nextTimerId : (cancelAllPendingReminders st).nextTimerId = st.nextTimerId := rfl
@[simp] theorem cancelAllPendingReminders_idleDebounce : (cancelAllPendingReminders st).idleDebounce = st.idleDebounce := rfl
@[simp] theorem cancelAllPendingReminders_effects : (cancelAllPendingReminders st).effects = st.effects := rfl
@[simp] theorem scheduleTTSReminder_now : (scheduleTTSReminder cfg ty pc st).now = st.now := by unfold scheduleTTSReminder; split <;> simp
@[simp] theorem scheduleTTSReminder_lastUserActivityTime : (scheduleTTSReminder cfg ty pc st).lastUserActivityTime = st.lastUserActivityTime := by unfold scheduleTTSReminder; split <;> simp
@[simp] theorem scheduleTTSReminder_seenUserMessageIds : (scheduleTTSReminder cfg ty pc st).seenUserMessageIds = st.seenUserMessageIds := by unfold scheduleTTSReminder; split <;> simp
@[simp] theorem scheduleTTSReminder_lastSessionIdleTime : (scheduleTTSReminder cfg ty pc st).lastSessionIdleTime = st.lastSessionIdleTime := by unfold scheduleTTSReminder; split <;> simp
@[simp] theorem scheduleTTSReminder_activePermissionId : (scheduleTTSReminder cfg ty pc st).activePermissionId = st.activePermissionId := by unfold scheduleTTSReminder; split <;> simp
@[simp] theorem scheduleTTSReminder_pendingPermissionBatch : (scheduleTTSReminder cfg ty pc st).pendingPermissionBatch = st.pendingPermissionBatch := by unfold scheduleTTSReminder; split <;> simp
@[simp] theorem scheduleTTSReminder_permissionBatchTimeout : (scheduleTTSReminder cfg ty pc st).permissionBatchTimeout = st.permissionBatchTimeout := by unfold scheduleTTSReminder; split <;> simp
@[simp] theorem scheduleTTSReminder_idleDebounce : (scheduleTTSReminder cfg ty pc st).idleDebounce = st.idleDebounce := by unfold scheduleTTSReminder; split <;> simp
@[simp] theorem scheduleTTSReminder_effects2 : (scheduleTTSReminder cfg ty pc st).effects = st.effects := by unfold scheduleTTSReminder; split <;> simp
@[simp] theorem smartNotify_now : (smartNotify cfg ty sf loops htts pc st).now = st.now := by cases sf <;> simp only [smartNotify] <;> (repeat' split) <;> simp
@[simp] theorem smartNotify_lastUserActivityTime : (smartNotify cfg ty sf loops htts pc st).lastUserActivityTime = st.lastUserActivityTime := by cases sf <;> simp only [smartNotify] <;> (repeat' split) <;> simp
@[simp] theorem smartNotify_seenUserMessageIds : (smartNotify cfg ty sf loops htts pc st).seenUserMessageIds = st.seenUserMessageIds := by cases sf <;> simp only [smartNotify] <;> (repeat' split) <;> simp
@[simp] theorem smartNotify_lastSessionIdleTime : (smartNotify cfg ty sf loops htts pc st).lastSessionIdleTime = st.lastSessionIdleTime := by cases sf <;> simp only [smartNotify] <;> (repeat' split) <;> simp
@[simp] theorem smartNotify_activePermissionId : (smartNotify cfg ty sf loops htts pc st).activePermissionId = st.activePermissionId := by cases sf <;> simp only [smartNotify] <;> (repeat' split) <;> simp
@[simp] theorem smartNotify_pendingPermissionBatch : (smartNotify cfg ty sf loops htts pc st).pendingPermissionBatch = st.pendingPermissionBatch := by cases sf <;> simp only [smartNotify] <;> (repeat' split) <;> simp
@[simp] theorem smartNotify_permissionBatchTimeout : (smartNotify cfg ty sf loops htts pc st).permissionBatchTimeout = st.permissionBatchTimeout := by cases sf <;> simp only [smartNotify] <;> (repeat' split) <;> simp
@[simp] theorem smartNotify_idleDebounce : (smartNotify cfg ty sf loops htts pc st).idleDebounce = st.idleDebounce := by cases sf <;> simp only [smartNotify] <;> (repeat' split) <;> simp
@[simp] theorem fireReminderMain_now : (fireReminderMain cfg throws ty d st).now = st.now := by unfold fireReminderMain; (repeat' (first | split | simp_all))
@[simp] theorem fireReminderMain_lastUserActivityTime : (fireReminderMain cfg throws ty d st).lastUserActivityTime = st.lastUserActivityTime := by unfold fireReminderMain; (repeat' (first | split | simp_all))
@[simp] theorem fireReminderMain_seenUserMessageIds : (fireReminderMain cfg throws ty d st).seenUserMessageIds = st.seenUserMessageIds := by unfold fireReminderMain; (repeat' (first | split | simp_all))
@[simp] theorem fireReminderMain_lastSessionIdleTime : (fireReminderMain cfg throws ty d st).lastSessionIdleTime = st.lastSessionIdleTime := by unfold fireReminderMain; (repeat' (first | split | simp_all))
@[simp] theorem fireReminderMain_activePermissionId : (fireReminderMain cfg throws ty d st).activePermissionId = st.activePermissionId := by unfold fireReminderMain; (repeat' (first | split | simp_all))
@[simp] theorem fireReminderMain_pendingPermissionBatch : (fireReminderMain cfg throws ty d st).pendingPermissionBatch = st.pendingPermissionBatch := by unfold fireReminderMain; (repeat' (first | split | simp_all))
@[simp] theorem fireReminderMain_permissionBatchTimeout : (fireReminderMain cfg throws ty d st).permissionBatchTimeout = st.permissionBatchTimeout := by unfold fireReminderMain; (repeat' (first | split | simp_all))
@[simp] theorem fireReminderMain_idleDebounce : (fireReminderMain cfg throws ty d st).idleDebounce = st.idleDebounce := by unfold fireReminderMain; (repeat' (first | split | simp_all))
@[simp] theorem fireReminderFollowUp_now : (fireReminderFollowUp cfg throws ty st).now = st.now := by unfold fireReminderFollowUp; (repeat' split) <;> simp
@[simp] theorem fireReminderFollowUp_lastUserActivityTime : (fireReminderFollowUp cfg throws ty st).lastUserActivityTime = st.lastUserActivityTime := by unfold fireReminderFollowUp; (repeat' split) <;> simp
@[simp] theorem fireReminderFollowUp_seenUserMessageIds : (fireReminderFollowUp cfg throws ty st).seenUserMessageIds = st.seenUserMessageIds := by unfold fireReminderFollowUp; (repeat' split) <;> simp
@[simp] theorem fireReminderFollowUp_lastSessionIdleTime : (fireReminderFollowUp cfg throws ty st).lastSessionIdleTime = st.lastSessionIdleTime := by unfold fireReminderFollowUp; (repeat' split) <;> simp
@[simp] theorem fireReminderFollowUp_activePermissionId : (fireReminderFollowUp cfg throws ty st).activePermissionId = st.activePermissionId := by unfold fireReminderFollowUp; (repeat' split) <;> simp
@[simp] theorem fireReminderFollowUp_pendingPermissionBatch : (fireReminderFollowUp cfg throws ty st).pendingPermissionBatch = st.pendingPermissionBatch := by unfold fireReminderFollowUp; (repeat' split) <;> simp
@[simp] theorem fireReminderFollowUp_permissionBatchTimeout : (fireReminderFollowUp cfg throws ty st).permissionBatchTimeout = st.permissionBatchTimeout := by unfold fireReminderFollowUp; (repeat' split) <;> simp
@[simp] theorem fireReminderFollowUp_timers : (fireReminderFollowUp cfg throws ty st).timers = st.timers := by unfold fireReminderFollowUp; (repeat' split) <;> simp
@[simp] theorem fireReminderFollowUp_nextTimerId : (fireReminderFollowUp cfg throws ty st).nextTimerId = st.nextTimerId := by unfold fireReminderFollowUp; (repeat' split) <;> simp
@[simp] theorem fireReminderFollowUp_idleDebounce : (fireReminderFollowUp cfg throws ty st).idleDebounce = st.idleDebounce := by unfold fireReminderFollowUp; (repeat' split) <;> simp
@[simp] theorem processPermissionBatch_now : (processPermissionBatch cfg st).now = st.now := by simp only [processPermissionBatch] <;> (repeat' split) <;> simp
@[simp] theorem processPermissionBatch_lastUserActivityTime : (processPermissionBatch cfg st).lastUserActivityTime = st.lastUserActivityTime := by simp only [processPermissionBatch] <;> (repeat' split) <;> simp
@[simp] theorem processPermissionBatch_seenUserMessageIds : (processPermissionBatch cfg st).seenUserMessageIds = st.seenUserMessageIds := by simp only [processPermissionBatch] <;> (repeat' split) <;> simp
@[simp] theorem processPermissionBatch_lastSessionIdleTime : (processPermissionBatch cfg st).lastSessionIdleTime = st.lastSessionIdleTime := by simp only [processPermissionBatch] <;> (repeat' split) <;> simp
@[simp] theorem processPermissionBatch_idleDebounce : (processPermissionBatch cfg st).idleDebounce = st.idleDebounce := by simp only [processPermissionBatch] <;> (repeat' split) <;> simp
@[simp] theorem fireTimer_now : (fireTimer cfg throws k st).now = st.now := by cases k <;> simp [fireTimer]
@[simp] theorem fireTimer_lastUserActivityTime : (fireTimer cfg throws k st).lastUserActivityTime = st.lastUserActivityTime := by cases k <;> simp [fireTimer]
@[simp] theorem fireTimer_seenUserMessageIds : (fireTimer cfg throws k st).seenUserMessageIds = st.seenUserMessageIds := by cases k <;> simp [fireTimer]
@[simp] theorem fireTimer_lastSessionIdleTime : (fireTimer cfg throws k st).lastSessionIdleTime = st.lastSessionIdleTime := by cases k <;> simp [fireTimer]
@[simp] theorem fireTimer_idleDebounce : (fireTimer cfg throws k st).idleDebounce = st.idleDebounce := by cases k <;> simp [fireTimer]

end SVN

namespace SVN

/-! ### Timer-shape lemmas for the callbacks -/

theorem timers_cancelPendingReminder (ty : RType) (st : PState) (tm : Timer)
    (h : tm ∈ (cancelPendingReminder ty st).timers) : tm ∈ st.timers := by
  unfold cancelPendingReminder at h
  split at h
  · exact ((mem_removeTimer _ _ _).mp h).1
  · exact h

theorem timers_cancelAllPendingReminders (st : PState) (tm : Timer)
    (h : tm ∈ (cancelAllPendingReminders st).timers) : tm ∈ st.timers := by
  unfold cancelAllPendingReminders at h
  exact (List.mem_filter.mp h).1

/-- Closed form of the timer list after `cancelPendingReminder`. -/
theorem cancelPendingReminder_timers_def (ty : RType) (st : PState) :
    (cancelPendingReminder ty st).timers =
      match alGet st.pendingReminders ty with
      | some r => removeTimer st.timers r.timeoutId
      | none => st.timers := by
  unfold cancelPendingReminder
  split <;> simp_all

/-- Closed form of the timer list after `scheduleTTSReminder`. -/
theorem scheduleTTSReminder_timers_def (cfg : Config) (ty : RType) (pc : Nat) (st : PState) :
    (scheduleTTSReminder cfg ty pc st).timers =
      if cfg.enableTTSReminder = true then
        (cancelPendingReminder ty st).timers ++
          [⟨st.nextTimerId, st.now + reminderDelaySeconds cfg ty * 1000,
            .reminderMain ty (reminderDelaySeconds cfg ty)⟩]
      else st.timers := by
  unfold scheduleTTSReminder
  split <;> simp_all

theorem timers_scheduleTTSReminder (cfg : Config) (ty : RType) (pc : Nat) (st : PState)
    (tm : Timer) (h : tm ∈ (scheduleTTSReminder cfg ty pc st).timers) :
    tm ∈ st.timers ∨ tm.kind = .reminderMain ty (reminderDelaySeconds cfg ty) := by
  rw [scheduleTTSReminder_timers_def] at h
  split at h
  · simp only [List.mem_append, List.mem_singleton] at h
    rcases h with h | h
    · exact Or.inl (timers_cancelPendingReminder ty st tm h)
    · subst h
      exact Or.inr rfl
  · exact Or.inl h

/-- The timer list after `smartNotify` is either untouched or is the
schedule of a fresh initial reminder for its type. -/
theorem smartNotify_timers_def (cfg : Config) (ty : RType) (sf : Option String)
    (loops : Nat) (htts : Bool) (pc : Nat) (st : PState) :
    (smartNotify cfg ty sf loops htts pc st).timers = st.timers ∨
    (smartNotify cfg ty sf loops htts pc st).timers =
      (cancelPendingReminder ty st).timers ++
        [⟨st.nextTimerId, st.now + reminderDelaySeconds cfg ty * 1000,
          .reminderMain ty (reminderDelaySeconds cfg ty)⟩] := by
  cases sf <;> simp only [smartNotify] <;> (repeat' split) <;>
    simp_all [scheduleTTSReminder_timers_def, cancelPendingReminder_timers_def]

theorem timers_smartNotify (cfg : Config) (ty : RType) (sf : Option String)
    (loops : Nat) (htts : Bool) (pc : Nat) (st : PState) (tm : Timer)
    (h : tm ∈ (smartNotify cfg ty sf loops htts pc st).timers) :
    tm ∈ st.timers ∨ tm.kind = .reminderMain ty (reminderDelaySeconds cfg ty) := by
  rcases smartNotify_timers_def cfg ty sf loops htts pc st with he | he
  · rw [he] at h
    exact Or.inl h
  · rw [he] at h
    simp only [List.mem_append, List.mem_singleton] at h
    rcases h with h | h
    · exact Or.inl (timers_cancelPendingReminder ty st tm h)
    · subst h
      exact Or.inr rfl

/-- The timer list after the initial reminder callback is either untouched
or extended by one follow-up timer for its type. -/
theorem fireReminderMain_timers_def (cfg : Config) (throws : Bool) (ty : RType)
    (d : ℚ) (st : PState) :
    (fireReminderMain cfg throws ty d st).timers = st.timers ∨
    ∃ t : ℚ, (fireReminderMain cfg throws ty d st).timers =
      st.timers ++ [⟨st.nextTimerId, t, .reminderFollowUp ty⟩] := by
  unfold fireReminderMain
  cases hA : alGet st.pendingReminders ty with
  | none => exact Or.inl (by simp [hA])
  | some r =>
    by_cases hAct : st.lastUserActivityTime > r.scheduledAt
    · exact Or.inl (by simp [hA, hAct])
    · by_cases hthrows : throws = true
      · refine Or.inl ?_
        by_cases hEK : elevenKeyMissing cfg = true <;>
          simp [hA, hAct, hthrows, hEK]
      · by_cases hFU : cfg.enableFollowUpReminders = true
        · by_cases hLt : r.followUpCount + 1 < jsOrN cfg.maxFollowUpReminders 3
          · refine Or.inr ⟨st.now + d * jsOrQ cfg.reminderBackoffMultiplier (mkRat 3 2) ^
                (r.followUpCount + 1) * 1000, ?_⟩
            by_cases hEK : elevenKeyMissing cfg = true <;>
              simp [hA, hAct, hthrows, hFU, hLt, hEK]
          · refine Or.inl ?_
            by_cases hEK : elevenKeyMissing cfg = true <;>
              simp [hA, hAct, hthrows, hFU, hLt, hEK]
        · refine Or.inl ?_
          by_cases hEK : elevenKeyMissing cfg = true <;>
            simp [hA, hAct, hthrows, hFU, hEK]

theorem timers_fireReminderMain (cfg : Config) (throws : Bool) (ty : RType) (d : ℚ)
    (st : PState) (tm : Timer) (h : tm ∈ (fireReminderMain cfg throws ty d st).timers) :
    tm ∈ st.timers ∨ tm.kind = .reminderFollowUp ty := by
  rcases fireReminderMain_timers_def cfg throws ty d st with he | ⟨t, he⟩ <;> rw [he] at h
  · exact Or.inl h
  · simp only [List.mem_append, List.mem_singleton] at h
    rcases h with h | h
    · exact Or.inl h
    · subst h
      exact Or.inr rfl

theorem timers_fireReminderFollowUp (cfg : Config) (throws : Bool) (ty : RType)
    (st : PState) : (fireReminderFollowUp cfg throws ty st).timers = st.timers := by
  unfold fireReminderFollowUp
  (repeat' split) <;> simp [emitE]

theorem timers_processPermissionBatch (cfg : Config) (st : PState) (tm : Timer)
    (h : tm ∈ (processPermissionBatch cfg st).timers) :
    tm ∈ st.timers ∨
      tm.kind = .reminderMain .permission (reminderDelaySeconds cfg .permission) := by
  rcases hbl : st.pendingPermissionBatch with _ | ⟨x, xs⟩
  · have he : (processPermissionBatch cfg st).timers = st.timers := by
      unfold processPermissionBatch
      simp [hbl]
    rw [he] at h
    exact Or.inl h
  · by_cases hm : (cfg.notificationMode = NMode.ttsFirst ∨ cfg.notificationMode = NMode.bothMode)
    all_goals
      simp only [processPermissionBatch, hbl] at h
      simp [hm] at h
      rcases timers_smartNotify _ _ _ _ _ _ _ _ h with hx | hx
      · simp at hx
        exact Or.inl hx
      · exact Or.inr hx

end SVN





namespace SVN

/-! ### Drain lemmas -/

theorem countEff_eq_countEffP (e : Effect) (st : PState) :
    countEff e st = countEffP (fun x => decide (x = e)) st := rfl

theorem countSideFor_eq_countEffP (ty : RType) (st : PState) :
    countSideFor ty st = countEffP (isSideFor ty) st := rfl

/-- A fired timer callback never touches the idle-debounce map, never
emits an idle toast and never changes the clock. -/
theorem countEffP_fireTimer (f : Effect → Bool) (cfg : Config) (throws : Bool)
    (k : TimerKind) (st : PState)
    (hW : f .toastWarning = false)
    (hRem : ∀ ty2 b c, f (.speakReminder ty2 b c) = false)
    (hS : ∀ l, f (.soundPlayed .permission l) = false)
    (hI : f (.speakImmediate .permission) = false)
    (hB : ∀ n, f (.toastBatch n) = false) :
    countEffP f (fireTimer cfg throws k st) = countEffP f st := by
  cases k with
  | reminderMain ty d =>
    exact countEffP_fireReminderMain f cfg throws ty d st hW (fun c => hRem ty false c)
  | reminderFollowUp ty =>
    exact countEffP_fireReminderFollowUp f cfg throws ty st (fun c => hRem ty true c)
  | permissionBatch =>
    show countEffP f (processPermissionBatch cfg st) = countEffP f st
    rw [countEffP_processPermissionBatch f cfg st hS hI]
    simp [hB]

/-- Draining timers preserves the idle-debounce map and the idle-toast
count, and only advances the clock up to the deadline. -/
theorem runTimersUntil_idle_frame (cfg : Config) (orc : Nat → Bool) (dl : ℚ) :
    ∀ (fuel : Nat) (st : PState),
    (runTimersUntil cfg orc dl fuel st).idleDebounce = st.idleDebounce ∧
    countEff .toastIdle (runTimersUntil cfg orc dl fuel st) = countEff .toastIdle st ∧
    (runTimersUntil cfg orc dl fuel st).now ≤ max st.now dl := by
  intro fuel
  induction fuel with
  | zero => exact fun st => ⟨rfl, rfl, le_max_left _ _⟩
  | succ n ih =>
    intro st
    unfold runTimersUntil
    cases hE : findEarliest st.timers with
    | none => exact ⟨rfl, rfl, le_max_left _ _⟩
    | some tm =>
      simp only [hE]
      by_cases hdl : tm.fireAt ≤ dl
      · rw [if_pos hdl]
        set st1 := fireTimer cfg (orc tm.id) tm.kind
          { st with now := max st.now tm.fireAt
                    timers := removeTimer st.timers tm.id } with hst1
        obtain ⟨ih1, ih2, ih3⟩ := ih st1
        refine ⟨?_, ?_, ?_⟩
        · rw [ih1, hst1, fireTimer_idleDebounce]
        · rw [ih2, hst1]
          rw [countEff_eq_countEffP, countEff_eq_countEffP]
          exact countEffP_fireTimer _ _ _ _ _ (by rfl) (fun a b c => rfl)
            (fun l => rfl) (by rfl) (fun nn => rfl)
        · refine le_trans ih3 ?_
          rw [hst1, fireTimer_now]
          have hf : tm.fireAt ≤ max st.now dl := le_trans hdl (le_max_right _ _)
          simp only [max_le_iff]
          exact ⟨⟨le_max_left _ _, hf⟩, le_max_right _ _⟩
      · rw [if_neg hdl]
        exact ⟨rfl, rfl, le_max_left _ _⟩

end SVN


namespace SVN

/-! ### Idle-debounce lemmas (spec-modelled gate) -/

/-- A same-session idle event within 5000 ms of the previously accepted one
is suppressed: the handler changes nothing at all. -/
theorem handleSessionIdle_suppressed (cfg : Config) (sid : String) (prev : ℚ)
    (st : PState) (h1 : alGet st.idleDebounce sid = some prev)
    (h2 : st.now - prev < 5000) :
    handleEvent cfg (.sessionIdle (some sid) none) st = st := by
  simp [handleEvent, handleSessionIdle, h1, h2]

/-- An idle event outside the window (or with no previous entry) is
accepted: the current time is recorded for the session, the notification
cycle's toast is emitted (when toasts are enabled) and the clock is
untouched. -/
theorem handleSessionIdle_accepted (cfg : Config) (sid : String) (st : PState)
    (hacc : match alGet st.idleDebounce sid with
            | some prev => ¬(st.now - prev < 5000)
            | none => True) :
    alGet (handleEvent cfg (.sessionIdle (some sid) none) st).idleDebounce sid =
      some st.now ∧
    countEff .toastIdle (handleEvent cfg (.sessionIdle (some sid) none) st) =
      countEff .toastIdle st + (if cfg.enableToast = true then 1 else 0) ∧
    (handleEvent cfg (.sessionIdle (some sid) none) st).now = st.now := by
  have hsup : (match alGet st.idleDebounce sid with
      | some prev => if st.now - prev < 5000 then true else false
      | none => false) = false := by
    cases hA : alGet st.idleDebounce sid with
    | none => rfl
    | some prev =>
      simp only [hA] at hacc
      simp [hacc]
  have hred : handleEvent cfg (.sessionIdle (some sid) none) st =
      smartNotify cfg .idle cfg.idleSound 1 true 1 (toastIf cfg .toastIdle
        { st with lastSessionIdleTime := st.now
                  idleDebounce := alSet st.idleDebounce sid st.now }) := by
    simp only [handleEvent, handleSessionIdle, hsup, Bool.false_eq_true, if_false,
      Option.isSome_none]
  refine ⟨?_, ?_, ?_⟩
  · rw [hred]
    simp [alGet_alSet_self]
  · rw [hred, countEff_eq_countEffP, countEff_eq_countEffP]
    rw [countEffP_smartNotify _ _ _ _ _ _ _ _ (by rfl) (by rfl)]
    unfold toastIf
    split
    · rw [countEffP_emitE]
      simp_all [countEffP]
    · simp_all [countEffP]
  · rw [hred]
    simp

/-- Every further idle event for the same session arriving while the
5000 ms window is still open is a no-op: the toast count, the recorded
entry and the window bound survive the whole burst. -/
theorem runTrace_idle_suppressed (cfg : Config) (orc : Nat → Bool) (sid : String)
    (t0 : ℚ) :
    ∀ (ts : List ℚ) (fuel : Nat) (st : PState),
    alGet st.idleDebounce sid = some t0 →
    st.now < t0 + 5000 →
    (∀ t ∈ ts, t < t0 + 5000) →
    countEff .toastIdle (runTrace cfg orc
        (ts.map fun t => (t, .sessionIdle (some sid) none)) fuel st) =
      countEff .toastIdle st ∧
    alGet (runTrace cfg orc
        (ts.map fun t => (t, .sessionIdle (some sid) none)) fuel st).idleDebounce sid =
      some t0 ∧
    (runTrace cfg orc
        (ts.map fun t => (t, .sessionIdle (some sid) none)) fuel st).now < t0 + 5000 := by
  intro ts
  induction ts with
  | nil => exact fun fuel st h1 h2 h3 => ⟨rfl, h1, h2⟩
  | cons t rest ih =>
    intro fuel st h1 h2 h3
    simp only [List.map_cons, runTrace]
    obtain ⟨f1, f2, f3⟩ := runTimersUntil_idle_frame cfg orc t fuel st
    set st1 := runTimersUntil cfg orc t fuel st with hst1
    have ht : t < t0 + 5000 := h3 t (List.mem_cons_self _ _)
    have hnow1 : max st1.now t < t0 + 5000 := by
      rw [max_lt_iff]
      exact ⟨lt_of_le_of_lt f3 (max_lt h2 ht), ht⟩
    have hsup : handleEvent cfg (.sessionIdle (some sid) none)
        { st1 with now := max st1.now t } = { st1 with now := max st1.now t } := by
      apply handleSessionIdle_suppressed cfg sid t0
      · show alGet st1.idleDebounce sid = some t0
        rw [f1]
        exact h1
      · show max st1.now t - t0 < 5000
        rw [sub_lt_iff_lt_add, add_comm]
        exact hnow1
    rw [hsup]
    have hrec := ih fuel { st1 with now := max st1.now t }
      (by show alGet st1.idleDebounce sid = some t0; rw [f1]; exact h1)
      (by show max st1.now t < t0 + 5000; exact hnow1)
      (fun x hx => h3 x (List.mem_cons_of_mem _ hx))
    refine ⟨?_, hrec.2.1, hrec.2.2⟩
    rw [hrec.1]
    show countEff .toastIdle st1 = countEff .toastIdle st
    exact f2

end SVN

/-- C2: idle-event debounce (gate `Modelled from the spec:` §4.1, absent
from the embedded snapshot, exercised by the repository's tests): (a) an
idle event for a session id arriving within 5000 ms of the previously
accepted one changes nothing; (b) an accepted idle event records the
current time for that session; (c) for a burst of idle events for one
session — the first accepted at `t0`, the rest arriving before
`t0 + 5000` — exactly one notification cycle (idle toast) is observed,
timer callbacks firing in between included. -/
theorem claim_C2 (cfg : SVN.Config) (orc : Nat → Bool) (st : SVN.PState)
    (sid : String) (t0 : ℚ) (ts : List ℚ) (fuel : Nat) :
    (∀ prev, SVN.alGet st.idleDebounce sid = some prev → st.now - prev < 5000 →
      SVN.handleEvent cfg (.sessionIdle (some sid) none) st = st) ∧
    (SVN.alGet st.idleDebounce sid = none →
      SVN.alGet (SVN.handleEvent cfg
        (.sessionIdle (some sid) none) st).idleDebounce sid = some st.now) ∧
    (cfg.enableToast = true →
     SVN.alGet st.idleDebounce sid = none →
     st.now ≤ t0 →
     (∀ t ∈ ts, t < t0 + 5000) →
     SVN.countEff .toastIdle (SVN.runTrace cfg orc
         ((t0, .sessionIdle (some sid) none) ::
           ts.map (fun t => (t, .sessionIdle (some sid) none))) fuel st) =
       SVN.countEff .toastIdle st + 1) := by
  refine ⟨?_, ?_, ?_⟩
  · intro prev h1 h2
    exact SVN.handleSessionIdle_suppressed cfg sid prev st h1 h2
  · intro h1
    refine (SVN.handleSessionIdle_accepted cfg sid st ?_).1
    rw [h1]
    trivial
  · intro hT h1 h2 h3
    simp only [SVN.runTrace]
    obtain ⟨f1, f2, f3⟩ := SVN.runTimersUntil_idle_frame cfg orc t0 fuel st
    set st1 := SVN.runTimersUntil cfg orc t0 fuel st with hst1
    have hnow1 : max st1.now t0 = t0 := by
      rw [max_eq_right]
      refine le_trans f3 ?_
      rw [max_eq_right h2]
    obtain ⟨a1, a2, a3⟩ := SVN.handleSessionIdle_accepted cfg sid
      { st1 with now := max st1.now t0 }
      (by show (match SVN.alGet st1.idleDebounce sid with
            | some prev => ¬(max st1.now t0 - prev < 5000)
            | none => True)
          rw [f1, h1]
          trivial)
    set stH := SVN.handleEvent cfg (.sessionIdle (some sid) none)
      { st1 with now := max st1.now t0 } with hstH
    have h5 := SVN.runTrace_idle_suppressed cfg orc sid t0 ts fuel stH
      (by rw [a1]; show some (max st1.now t0) = some t0; rw [hnow1])
      (by rw [a3]; show max st1.now t0 < t0 + 5000
          rw [hnow1]
          linarith)
      h3
    rw [h5.1, a2, hT, if_pos rfl]
    show SVN.countEff .toastIdle st1 + 1 = SVN.countEff .toastIdle st + 1
    rw [f2]

/-- Witness for C2 on a concrete burst: idle events at 0, 1000 and 2000 ms
for the same session produce one toast. -/
theorem claim_C2_witness :
    (SVN.backoffCfg.enableToast = true ∧
     SVN.alGet SVN.initState.idleDebounce "s1" = none ∧
     SVN.initState.now ≤ 0 ∧
     (∀ t ∈ [(1000 : ℚ), 2000], t < 0 + 5000)) ∧
    SVN.countEff .toastIdle (SVN.runTrace SVN.backoffCfg SVN.noThrowOrc
        ((0, .sessionIdle (some "s1") none) ::
          [(1000 : ℚ), 2000].map (fun t => (t, .sessionIdle (some "s1") none))) 10
        SVN.initState) =
      SVN.countEff .toastIdle SVN.initState + 1 :=
  ⟨⟨by decide, by decide, by decide, by decide⟩,
   (claim_C2 SVN.backoffCfg SVN.noThrowOrc SVN.initState "s1" 0 [1000, 2000] 10).2.2
     (by decide) (by decide) (by decide) (by decide)⟩


namespace SVN

/-! ### Cancellation (no-source) drain lemmas -/

theorem referencedBy_of_alGet (m : List (RType × Reminder)) (k : RType) (r : Reminder)
    (h : alGet m k = some r) : referencedBy m r.timeoutId = true := by
  induction m with
  | nil => simp [alGet] at h
  | cons p rest ih =>
    obtain ⟨a, b⟩ := p
    unfold alGet at h
    by_cases ha : a = k
    · rw [if_pos ha] at h
      cases h
      simp [referencedBy]
    · rw [if_neg ha] at h
      have hr := ih h
      simp only [referencedBy, List.any_cons, Bool.or_eq_true]
      right
      simpa [referencedBy] using hr

/-- Firing timers from a state with no timer able to produce (directly or
transitively) a reminder for `ty` keeps that property and adds no
speech/sound effect attributed to `ty`. -/
theorem runTimersUntil_noSourceFor (ty : RType) (cfg : Config) (orc : Nat → Bool)
    (dl : ℚ) :
    ∀ (fuel : Nat) (st : PState), noSourceFor ty st →
    noSourceFor ty (runTimersUntil cfg orc dl fuel st) ∧
    countSideFor ty (runTimersUntil cfg orc dl fuel st) = countSideFor ty st := by
  intro fuel
  induction fuel with
  | zero => exact fun st h => ⟨h, rfl⟩
  | succ n ih =>
    intro st h
    unfold runTimersUntil
    cases hE : findEarliest st.timers with
    | none => exact ⟨h, rfl⟩
    | some tm =>
      simp only [hE]
      by_cases hdl : tm.fireAt ≤ dl
      · rw [if_pos hdl]
        have htm := findEarliest_mem _ _ hE
        obtain ⟨hk1, hk2⟩ := h tm htm
        have hR : noSourceFor ty
            { st with now := max st.now tm.fireAt
                      timers := removeTimer st.timers tm.id } := by
          intro t2 ht2
          exact h t2 ((mem_removeTimer _ _ _).mp ht2).1
        set stR := { st with now := max st.now tm.fireAt
                             timers := removeTimer st.timers tm.id } with hstR
        have hstep : noSourceFor ty (fireTimer cfg (orc tm.id) tm.kind stR) ∧
            countSideFor ty (fireTimer cfg (orc tm.id) tm.kind stR) =
              countSideFor ty stR := by
          cases hkk : tm.kind with
          | reminderMain ty2 d =>
            rw [hkk] at hk1
            have hne : ty2 ≠ ty := fun hc => hk1 (by rw [hc]; rfl)
            constructor
            · intro t2 ht2
              rcases timers_fireReminderMain cfg (orc tm.id) ty2 d stR t2 ht2 with hx | hx
              · exact hR t2 hx
              · constructor
                · rw [hx]
                  simp [remTy, hne]
                · intro _
                  rw [hx]
                  simp
            · rw [countSideFor_eq_countEffP, countSideFor_eq_countEffP]
              exact countEffP_fireReminderMain (isSideFor ty) cfg (orc tm.id) ty2 d stR
                (by rfl) (fun c => by simp [isSideFor, hne])
          | reminderFollowUp ty2 =>
            rw [hkk] at hk1
            have hne : ty2 ≠ ty := fun hc => hk1 (by rw [hc]; rfl)
            constructor
            · intro t2 ht2
              rw [show (fireTimer cfg (orc tm.id) (.reminderFollowUp ty2) stR) =
                  fireReminderFollowUp cfg (orc tm.id) ty2 stR from rfl,
                timers_fireReminderFollowUp] at ht2
              exact hR t2 ht2
            · rw [countSideFor_eq_countEffP, countSideFor_eq_countEffP]
              exact countEffP_fireReminderFollowUp (isSideFor ty) cfg (orc tm.id) ty2 stR
                (fun c => by simp [isSideFor, hne])
          | permissionBatch =>
            have hty : ty = .idle := by
              cases ty
              · rfl
              · rw [hkk] at hk2
                exact absurd rfl (hk2 rfl)
            subst hty
            constructor
            · intro t2 ht2
              rcases timers_processPermissionBatch cfg stR t2 ht2 with hx | hx
              · exact hR t2 hx
              · constructor
                · rw [hx]
                  simp [remTy]
                · intro hcc
                  cases hcc
            · rw [countSideFor_eq_countEffP, countSideFor_eq_countEffP]
              rw [show (fireTimer cfg (orc tm.id) .permissionBatch stR) =
                  processPermissionBatch cfg stR from rfl]
              rw [countEffP_processPermissionBatch _ _ _ (fun l => rfl) rfl]
              simp [isSideFor]
        obtain ⟨s1, s2⟩ := ih _ hstep.1
        refine ⟨s1, ?_⟩
        rw [s2, hstep.2]
        rfl
      · rw [if_neg hdl]
        exact ⟨h, rfl⟩

end SVN


namespace SVN

theorem repliedBatchRemove_frame (pid : Option String) (st : PState) :
    (repliedBatchRemove pid st).effects = st.effects ∧
    (repliedBatchRemove pid st).pendingReminders = st.pendingReminders ∧
    (repliedBatchRemove pid st).timers = st.timers ∧
    (repliedBatchRemove pid st).now = st.now := by
  unfold repliedBatchRemove
  (repeat' split) <;> exact ⟨rfl, rfl, rfl, rfl⟩

theorem repliedBatchCancel_frame (st : PState) :
    (repliedBatchCancel st).effects = st.effects ∧
    (repliedBatchCancel st).pendingReminders = st.pendingReminders ∧
    (repliedBatchCancel st).now = st.now ∧
    ∀ tm ∈ (repliedBatchCancel st).timers, tm ∈ st.timers := by
  unfold repliedBatchCancel
  (repeat' split) <;>
    refine ⟨rfl, rfl, rfl, fun tm htm => ?_⟩ <;>
    first
      | exact htm
      | exact ((mem_removeTimer _ _ _).mp htm).1

theorem repliedClearActive_frame (pid : Option String) (st : PState) :
    (repliedClearActive pid st).effects = st.effects ∧
    (repliedClearActive pid st).pendingReminders = st.pendingReminders ∧
    (repliedClearActive pid st).timers = st.timers ∧
    (repliedClearActive pid st).now = st.now := by
  unfold repliedClearActive
  (repeat' split) <;> exact ⟨rfl, rfl, rfl, rfl⟩

theorem handlePermissionReplied_effects (pid : Option String) (st : PState) :
    (handlePermissionReplied pid st).effects = st.effects := by
  unfold handlePermissionReplied
  rw [effects_cancelPendingReminder]
  show (repliedClearActive pid (repliedBatchCancel (repliedBatchRemove pid st))).effects =
    st.effects
  rw [(repliedClearActive_frame _ _).1, (repliedBatchCancel_frame _).1,
    (repliedBatchRemove_frame _ _).1]

/-- After a `permission.replied`, every surviving timer was already armed
before and is not the one the permission reminder entry stored. -/
theorem handlePermissionReplied_timers (pid : Option String) (st : PState)
    (r : Reminder) (hr : alGet st.pendingReminders .permission = some r) :
    ∀ tm ∈ (handlePermissionReplied pid st).timers,
      tm ∈ st.timers ∧ tm.id ≠ r.timeoutId := by
  intro tm htm
  unfold handlePermissionReplied at htm
  rw [cancelPendingReminder_timers_def] at htm
  have hpr : alGet (repliedClearActive pid
      (repliedBatchCancel (repliedBatchRemove pid st))).pendingReminders .permission =
      some r := by
    rw [(repliedClearActive_frame _ _).2.1, (repliedBatchCancel_frame _).2.1,
      (repliedBatchRemove_frame _ _).2.1]
    exact hr
  simp only [hpr] at htm
  rw [mem_removeTimer] at htm
  refine ⟨?_, htm.2⟩
  have h1 := (repliedClearActive_frame pid
    (repliedBatchCancel (repliedBatchRemove pid st))).2.2.1
  rw [show ({ repliedClearActive pid (repliedBatchCancel (repliedBatchRemove pid st)) with
      lastUserActivityTime :=
        (repliedClearActive pid (repliedBatchCancel (repliedBatchRemove pid st))).now } :
      PState).timers =
    (repliedClearActive pid (repliedBatchCancel (repliedBatchRemove pid st))).timers
    from rfl, h1] at htm
  have h2 := (repliedBatchCancel_frame (repliedBatchRemove pid st)).2.2.2
  have h3 := h2 tm htm.1
  rw [(repliedBatchRemove_frame pid st).2.2.1] at h3
  exact h3

/-- A first-time user message created after the idle transition reduces to
a full reminder cancellation (with the id recorded and activity
registered). -/
theorem handleMessage_cancelAll_red (cfg : Config) (mid : String) (t : ℚ)
    (st : PState) (hnew : mid ∉ st.seenUserMessageIds)
    (hI : st.lastSessionIdleTime > 0) (hT0 : t ≠ 0)
    (hGT : t * 1000 > st.lastSessionIdleTime) :
    handleEvent cfg (.messageUpdated (some mid) ("user") (some t)) st =
      cancelAllPendingReminders
        { st with seenUserMessageIds := mid :: st.seenUserMessageIds
                  lastUserActivityTime := st.now } := by
  have hcond : (if st.lastSessionIdleTime > 0 ∧ t ≠ 0 ∧ t * 1000 > st.lastSessionIdleTime
      then true else false) = true := by
    simp [hI, hT0, hGT]
  simp only [handleEvent, handleMessageUpdated, if_neg hnew, hcond, if_true]

end SVN

/-- C3: cancellation correctness.  From any consistently cross-referenced
state (`timersRefInv`, which holds in every reachable state): (a) if a
permission reminder is armed and no batch window is pending, processing a
`permission.replied` and then letting any number of timers fire produces no
further speech or sound attributed to `permission`; (b) if an idle reminder
is armed, processing a first-time user message created after the idle
transition and then letting any number of timers fire produces no further
speech or sound attributed to `idle`. -/
theorem claim_C3 (cfg : SVN.Config) (orc : Nat → Bool) (st : SVN.PState)
    (hInv : SVN.timersRefInv st) :
    (∀ pid r, SVN.alGet st.pendingReminders .permission = some r →
      st.permissionBatchTimeout = none →
      ∀ dl fuel,
        SVN.countSideFor .permission (SVN.runTimersUntil cfg orc dl fuel
          (SVN.handleEvent cfg (.permissionReplied pid) st)) =
          SVN.countSideFor .permission st) ∧
    (∀ mid t r, SVN.alGet st.pendingReminders .idle = some r →
      mid ∉ st.seenUserMessageIds →
      st.lastSessionIdleTime > 0 → t ≠ 0 → t * 1000 > st.lastSessionIdleTime →
      ∀ dl fuel,
        SVN.countSideFor .idle (SVN.runTimersUntil cfg orc dl fuel
          (SVN.handleEvent cfg
            (.messageUpdated (some mid) ("user") (some t)) st)) =
          SVN.countSideFor .idle st) := by
  constructor
  · intro pid r hr hBT dl fuel
    have hNS : SVN.noSourceFor .permission
        (SVN.handleEvent cfg (.permissionReplied pid) st) := by
      intro tm htm
      obtain ⟨hmem, hne⟩ := SVN.handlePermissionReplied_timers pid st r hr tm htm
      have hOk := hInv tm hmem
      constructor
      · intro hcc
        unfold SVN.timerRefOk at hOk
        simp only [hcc, hr] at hOk
        simp only [beq_iff_eq] at hOk
        exact hne hOk.symm
      · intro _ hkind
        have hOk2 := hInv tm hmem
        unfold SVN.timerRefOk at hOk2
        simp only [show SVN.remTy tm.kind = none from by rw [hkind]; rfl, hBT] at hOk2
        simp at hOk2
    have hC := SVN.runTimersUntil_noSourceFor .permission cfg orc dl fuel _ hNS
    rw [hC.2]
    show SVN.countSideFor .permission (SVN.handleEvent cfg (.permissionReplied pid) st) =
      SVN.countSideFor .permission st
    rw [SVN.countSideFor_eq_countEffP, SVN.countSideFor_eq_countEffP]
    unfold SVN.countEffP
    rw [show (SVN.handleEvent cfg (.permissionReplied pid) st).effects = st.effects from
      SVN.handlePermissionReplied_effects pid st]
  · intro mid t r hr hnew hI hT0 hGT dl fuel
    rw [SVN.handleMessage_cancelAll_red cfg mid t st hnew hI hT0 hGT]
    have hNS : SVN.noSourceFor .idle (SVN.cancelAllPendingReminders
        { st with seenUserMessageIds := mid :: st.seenUserMessageIds
                  lastUserActivityTime := st.now }) := by
      intro tm htm
      unfold SVN.cancelAllPendingReminders at htm
      rw [List.mem_filter] at htm
      obtain ⟨hmem, hpred⟩ := htm
      have hOk := hInv tm hmem
      constructor
      · intro hcc
        unfold SVN.timerRefOk at hOk
        simp only [hcc] at hOk
        cases hA : SVN.alGet st.pendingReminders .idle with
        | none => simp only [hA] at hOk; simp at hOk
        | some r2 =>
          simp only [hA] at hOk
          simp only [beq_iff_eq] at hOk
          have hRefd := SVN.referencedBy_of_alGet st.pendingReminders .idle r2 hA
          rw [hOk] at hRefd
          simp only [decide_eq_true_eq] at hpred
          exact hpred (by simpa using hRefd)
      · intro hcc
        cases hcc
    have hC := SVN.runTimersUntil_noSourceFor .idle cfg orc dl fuel _ hNS
    rw [hC.2]
    rw [SVN.countSideFor_eq_countEffP, SVN.countSideFor_eq_countEffP]
    unfold SVN.countEffP
    rfl


/-- Witness for C3: the state after one permission request whose batch
window has fired (reminder armed for 30 s), replied to before the
reminder fires. -/
theorem claim_C3_witness :
    (SVN.timersRefInv (SVN.runSystem SVN.backoffCfg SVN.noThrowOrc
        [(0, .permissionAsked (some "p1"))] 10 900) ∧
     SVN.alGet (SVN.runSystem SVN.backoffCfg SVN.noThrowOrc
        [(0, .permissionAsked (some "p1"))] 10 900).pendingReminders .permission =
       some ⟨1, 800, 0, 1⟩ ∧
     (SVN.runSystem SVN.backoffCfg SVN.noThrowOrc
        [(0, .permissionAsked (some "p1"))] 10 900).permissionBatchTimeout = none) ∧
    SVN.countSideFor .permission (SVN.runTimersUntil SVN.backoffCfg SVN.noThrowOrc
        100000 10 (SVN.handleEvent SVN.backoffCfg (.permissionReplied (some "p1"))
          (SVN.runSystem SVN.backoffCfg SVN.noThrowOrc
            [(0, .permissionAsked (some "p1"))] 10 900))) =
      SVN.countSideFor .permission (SVN.runSystem SVN.backoffCfg SVN.noThrowOrc
        [(0, .permissionAsked (some "p1"))] 10 900) :=
  ⟨⟨by decide, by decide, by decide⟩,
   (claim_C3 SVN.backoffCfg SVN.noThrowOrc
      (SVN.runSystem SVN.backoffCfg SVN.noThrowOrc
        [(0, .permissionAsked (some "p1"))] 10 900) (by decide)).1
     (some "p1") ⟨1, 800, 0, 1⟩ (by decide) (by decide) 100000 10⟩


namespace SVN

/-! ### Key-uniqueness (Nodup) preservation -/

theorem keysNodup_cancelPendingReminder (ty : RType) (st : PState)
    (h : (alKeys st.pendingReminders).Nodup) :
    (alKeys (cancelPendingReminder ty st).pendingReminders).Nodup := by
  unfold cancelPendingReminder
  split
  · exact alKeys_nodup_alErase _ _ h
  · exact h

theorem keysNodup_scheduleTTSReminder (cfg : Config) (ty : RType) (pc : Nat)
    (st : PState) (h : (alKeys st.pendingReminders).Nodup) :
    (alKeys (scheduleTTSReminder cfg ty pc st).pendingReminders).Nodup := by
  unfold scheduleTTSReminder
  split
  · exact alKeys_nodup_alSet _ _ _ (keysNodup_cancelPendingReminder ty st h)
  · exact h

theorem keysNodup_smartNotify (cfg : Config) (ty : RType) (sf : Option String)
    (loops : Nat) (htts : Bool) (pc : Nat) (st : PState)
    (h : (alKeys st.pendingReminders).Nodup) :
    (alKeys (smartNotify cfg ty sf loops htts pc st).pendingReminders).Nodup := by
  have hs : ∀ s : PState, s.pendingReminders = st.pendingReminders →
      (alKeys (scheduleTTSReminder cfg ty pc s).pendingReminders).Nodup := by
    intro s hseq
    refine keysNodup_scheduleTTSReminder cfg ty pc s ?_
    rw [hseq]
    exact h
  cases sf <;> simp only [smartNotify] <;> (repeat' split) <;>
    (try simp only [emitE_pendingReminders]) <;> (repeat' split) <;>
    first
      | exact h
      | exact hs _ (by simp)
      | (simp only [playSoundM_pendingReminders]; exact h)
      | exact hs _ (by simp [playSoundM_pendingReminders])

theorem keysNodup_processPermissionBatch (cfg : Config) (st : PState)
    (h : (alKeys st.pendingReminders).Nodup) :
    (alKeys (processPermissionBatch cfg st).pendingReminders).Nodup := by
  rcases hbl : st.pendingPermissionBatch with _ | ⟨x, xs⟩
  · have he : (processPermissionBatch cfg st).pendingReminders = st.pendingReminders := by
      unfold processPermissionBatch
      simp [hbl]
    rw [he]
    exact h
  · by_cases hm : (cfg.notificationMode = NMode.ttsFirst ∨ cfg.notificationMode = NMode.bothMode)
    all_goals
      unfold processPermissionBatch
      simp only [hbl]
      simp [hm]
      exact keysNodup_smartNotify _ _ _ _ _ _ _ (by simpa using h)

theorem keysNodup_fireReminderMain (cfg : Config) (throws : Bool) (ty : RType)
    (d : ℚ) (st : PState) (h : (alKeys st.pendingReminders).Nodup) :
    (alKeys (fireReminderMain cfg throws ty d st).pendingReminders).Nodup := by
  unfold fireReminderMain
  cases hA : alGet st.pendingReminders ty with
  | none => exact h
  | some r =>
    by_cases hAct : st.lastUserActivityTime > r.scheduledAt
    · simp only [hAct, if_true]
      exact alKeys_nodup_alErase _ _ h
    · by_cases hEK : elevenKeyMissing cfg = true
      all_goals by_cases hthrows : throws = true
      all_goals by_cases hFU : cfg.enableFollowUpReminders = true
      all_goals by_cases hLt : r.followUpCount + 1 < jsOrN cfg.maxFollowUpReminders 3
      all_goals
        simp only [hA, hAct, hEK, hthrows, hFU, hLt]
        simp [hA, hAct, hEK, hthrows, hFU, hLt]
      all_goals
        first
          | exact alKeys_nodup_alErase _ _ h
          | exact alKeys_nodup_alSet _ _ _ (alKeys_nodup_alErase _ _ h)
          | exact h

theorem keysNodup_fireReminderFollowUp (cfg : Config) (throws : Bool) (ty : RType)
    (st : PState) (h : (alKeys st.pendingReminders).Nodup) :
    (alKeys (fireReminderFollowUp cfg throws ty st).pendingReminders).Nodup := by
  unfold fireReminderFollowUp
  (repeat' split) <;>
    first
      | exact h
      | exact alKeys_nodup_alErase _ _ h
      | (simp only [emitE_pendingReminders]; exact alKeys_nodup_alErase _ _ h)
      | (show (alKeys (alErase (emitE _ st).pendingReminders ty)).Nodup
         simp only [emitE_pendingReminders]
         exact alKeys_nodup_alErase _ _ h)

theorem keysNodup_fireTimer (cfg : Config) (throws : Bool) (k : TimerKind)
    (st : PState) (h : (alKeys st.pendingReminders).Nodup) :
    (alKeys (fireTimer cfg throws k st).pendingReminders).Nodup := by
  cases k with
  | reminderMain ty d => exact keysNodup_fireReminderMain cfg throws ty d st h
  | reminderFollowUp ty => exact keysNodup_fireReminderFollowUp cfg throws ty st h
  | permissionBatch => exact keysNodup_processPermissionBatch cfg st h

end SVN


namespace SVN

theorem handlePermissionAsked_pr (cfg : Config) (pid : Option String) (st : PState) :
    (handlePermissionAsked cfg pid st).pendingReminders = st.pendingReminders := by
  unfold handlePermissionAsked
  dsimp only []
  (repeat' split) <;> rfl

theorem handleSessionCreated_pr (sid : Option String) (st : PState) :
    (handleSessionCreated sid st).pendingReminders = [] := by
  unfold handleSessionCreated
  dsimp only []
  (repeat' split) <;> simp [cancelAllPendingReminders]

theorem keysNodup_handleEvent (cfg : Config) (e : Event) (st : PState)
    (h : (alKeys st.pendingReminders).Nodup) :
    (alKeys (handleEvent cfg e st).pendingReminders).Nodup := by
  cases e with
  | messageUpdated mid role tc =>
    show (alKeys (handleMessageUpdated mid role tc st).pendingReminders).Nodup
    unfold handleMessageUpdated
    (repeat' split) <;>
      first
        | exact h
        | (show (alKeys (cancelAllPendingReminders _).pendingReminders).Nodup
           simp [cancelAllPendingReminders, alKeys])
  | permissionReplied pid =>
    show (alKeys (handlePermissionReplied pid st).pendingReminders).Nodup
    unfold handlePermissionReplied
    apply keysNodup_cancelPendingReminder
    show (alKeys (repliedClearActive pid
      (repliedBatchCancel (repliedBatchRemove pid st))).pendingReminders).Nodup
    rw [(repliedClearActive_frame _ _).2.1, (repliedBatchCancel_frame _).2.1,
      (repliedBatchRemove_frame _ _).2.1]
    exact h
  | sessionCreated sid =>
    show (alKeys (handleSessionCreated sid st).pendingReminders).Nodup
    rw [handleSessionCreated_pr]
    simp [alKeys]
  | sessionIdle sid parentID =>
    show (alKeys (handleSessionIdle cfg sid parentID st).pendingReminders).Nodup
    unfold handleSessionIdle
    (repeat' split) <;>
      first
        | exact h
        | exact keysNodup_smartNotify _ _ _ _ _ _ _ (by simpa using h)
  | permissionAsked pid =>
    show (alKeys (handlePermissionAsked cfg pid st).pendingReminders).Nodup
    rw [handlePermissionAsked_pr]
    exact h

theorem keysNodup_runTimersUntil (cfg : Config) (orc : Nat → Bool) (dl : ℚ) :
    ∀ (fuel : Nat) (st : PState), (alKeys st.pendingReminders).Nodup →
    (alKeys (runTimersUntil cfg orc dl fuel st).pendingReminders).Nodup := by
  intro fuel
  induction fuel with
  | zero => exact fun st h => h
  | succ n ih =>
    intro st h
    unfold runTimersUntil
    cases hE : findEarliest st.timers with
    | none => exact h
    | some tm =>
      simp only [hE]
      by_cases hdl : tm.fireAt ≤ dl
      · rw [if_pos hdl]
        exact ih _ (keysNodup_fireTimer _ _ _ _ h)
      · rw [if_neg hdl]
        exact h

theorem keysNodup_runTrace (cfg : Config) (orc : Nat → Bool) :
    ∀ (trace : List (ℚ × Event)) (fuel : Nat) (st : PState),
    (alKeys st.pendingReminders).Nodup →
    (alKeys (runTrace cfg orc trace fuel st).pendingReminders).Nodup := by
  intro trace
  induction trace with
  | nil => exact fun fuel st h => h
  | cons p rest ih =>
    intro fuel st h
    obtain ⟨t, e⟩ := p
    unfold runTrace
    exact ih fuel _ (keysNodup_handleEvent cfg e _
      (keysNodup_runTimersUntil cfg orc t fuel st h))

end SVN

/-- C7: at most one `PendingReminder` per type.  (a) In every state
reachable by any run of the system the reminder map's keys are pairwise
distinct; (b) scheduling a reminder for a type whose reminder is armed
first clears the old entry's timer (no surviving timer carries its handle)
and replaces the entry with a freshly armed one, leaving other types'
entries untouched and keeping key uniqueness. -/
theorem claim_C7 :
    (∀ (cfg : SVN.Config) (orc : Nat → Bool) (trace : List (ℚ × SVN.Event))
        (fuel : Nat) (horizon : ℚ),
      (SVN.alKeys (SVN.runSystem cfg orc trace fuel horizon).pendingReminders).Nodup) ∧
    (∀ (cfg : SVN.Config) (st : SVN.PState) (ty : SVN.RType) (pc : Nat)
        (r : SVN.Reminder),
      cfg.enableTTSReminder = true →
      SVN.alGet st.pendingReminders ty = some r →
      r.timeoutId < st.nextTimerId →
      (∀ tm ∈ (SVN.scheduleTTSReminder cfg ty pc st).timers, tm.id ≠ r.timeoutId) ∧
      SVN.alGet (SVN.scheduleTTSReminder cfg ty pc st).pendingReminders ty =
        some ⟨st.nextTimerId, st.now, 0, if pc = 0 then 1 else pc⟩ ∧
      (∀ ty2, ty2 ≠ ty →
        SVN.alGet (SVN.scheduleTTSReminder cfg ty pc st).pendingReminders ty2 =
          SVN.alGet st.pendingReminders ty2) ∧
      ((SVN.alKeys st.pendingReminders).Nodup →
        (SVN.alKeys (SVN.scheduleTTSReminder cfg ty pc st).pendingReminders).Nodup)) := by
  constructor
  · intro cfg orc trace fuel horizon
    exact SVN.keysNodup_runTimersUntil cfg orc horizon fuel _
      (SVN.keysNodup_runTrace cfg orc trace fuel SVN.initState (by simp [SVN.initState, SVN.alKeys]))
  · intro cfg st ty pc r hEn hr hlt
    refine ⟨?_, ?_, ?_, ?_⟩
    · intro tm htm
      rw [SVN.scheduleTTSReminder_timers_def, if_pos hEn] at htm
      rw [List.mem_append] at htm
      rcases htm with htm | htm
      · rw [SVN.cancelPendingReminder_timers_def, hr] at htm
        exact ((SVN.mem_removeTimer _ _ _).mp htm).2
      · rw [List.mem_singleton] at htm
        rw [htm]
        exact Nat.ne_of_gt hlt
    · unfold SVN.scheduleTTSReminder
      rw [if_pos hEn]
      show SVN.alGet (SVN.alSet (SVN.cancelPendingReminder ty st).pendingReminders ty _) ty =
        _
      rw [SVN.alGet_alSet_self]
      unfold SVN.cancelPendingReminder
      rw [hr]
    · intro ty2 hne
      unfold SVN.scheduleTTSReminder
      rw [if_pos hEn]
      show SVN.alGet (SVN.alSet (SVN.cancelPendingReminder ty st).pendingReminders ty _) ty2 =
        _
      rw [SVN.alGet_alSet_ne _ _ _ _ hne]
      unfold SVN.cancelPendingReminder
      rw [hr]
      show SVN.alGet (SVN.alErase st.pendingReminders ty) ty2 = _
      exact SVN.alGet_alErase_ne _ _ _ hne
    · exact SVN.keysNodup_scheduleTTSReminder cfg ty pc st

/-- Witness for C7's scheduling part at a concrete armed state. -/
theorem claim_C7_witness :
    (SVN.backoffCfg.enableTTSReminder = true ∧
     SVN.alGet (SVN.runSystem SVN.backoffCfg SVN.noThrowOrc
        [(0, .permissionAsked (some "p1"))] 10 900).pendingReminders .permission =
       some ⟨1, 800, 0, 1⟩ ∧
     (1 : Nat) < (SVN.runSystem SVN.backoffCfg SVN.noThrowOrc
        [(0, .permissionAsked (some "p1"))] 10 900).nextTimerId) ∧
    SVN.alGet (SVN.scheduleTTSReminder SVN.backoffCfg .permission 2
        (SVN.runSystem SVN.backoffCfg SVN.noThrowOrc
          [(0, .permissionAsked (some "p1"))] 10 900)).pendingReminders .permission =
      some ⟨(SVN.runSystem SVN.backoffCfg SVN.noThrowOrc
          [(0, .permissionAsked (some "p1"))] 10 900).nextTimerId,
        (SVN.runSystem SVN.backoffCfg SVN.noThrowOrc
          [(0, .permissionAsked (some "p1"))] 10 900).now, 0, 2⟩ :=
  ⟨⟨by decide, by decide, by decide⟩,
   by
    have h := (claim_C7.2 SVN.backoffCfg
      (SVN.runSystem SVN.backoffCfg SVN.noThrowOrc
        [(0, .permissionAsked (some "p1"))] 10 900) .permission 2 ⟨1, 800, 0, 1⟩
      (by decide) (by decide) (by decide)).2.1
    simpa using h⟩


namespace SVN

/-! ### Session-reset lemmas -/

theorem handleSessionCreated_reset (sid : Option String) (st : PState) :
    (handleSessionCreated sid st).pendingPermissionBatch = [] ∧
    (handleSessionCreated sid st).permissionBatchTimeout = none ∧
    (handleSessionCreated sid st).seenUserMessageIds = [] ∧
    (handleSessionCreated sid st).lastSessionIdleTime = 0 ∧
    (handleSessionCreated sid st).lastUserActivityTime = st.now ∧
    (handleSessionCreated sid st).now = st.now := by
  unfold handleSessionCreated cancelAllPendingReminders
  dsimp only []
  (repeat' split) <;> simp_all

theorem handleSessionCreated_debounce (sid : String) (st : PState) :
    alGet (handleSessionCreated (some sid) st).idleDebounce sid = none := by
  unfold handleSessionCreated cancelAllPendingReminders
  dsimp only []
  (repeat' split) <;> exact alGet_alErase_self _ _

theorem handleSessionCreated_timers_def (sid : Option String) (st : PState) :
    (handleSessionCreated sid st).timers =
      (match st.permissionBatchTimeout with
       | some tid =>
          removeTimer
            (st.timers.filter (fun tm => ¬ referencedBy st.pendingReminders tm.id)) tid
       | none =>
          st.timers.filter (fun tm => ¬ referencedBy st.pendingReminders tm.id)) := by
  unfold handleSessionCreated cancelAllPendingReminders
  dsimp only []
  cases sid <;> cases hB : st.permissionBatchTimeout <;> simp [hB]

theorem handleSessionCreated_timers_nil (sid : Option String) (st : PState)
    (hInv : timersRefInv st) : (handleSessionCreated sid st).timers = [] := by
  rw [handleSessionCreated_timers_def]
  cases hB : st.permissionBatchTimeout with
  | none =>
    rw [List.eq_nil_iff_forall_not_mem]
    intro tm hm
    rw [List.mem_filter] at hm
    obtain ⟨hmem, hpred⟩ := hm
    have hOk := hInv tm hmem
    unfold timerRefOk at hOk
    cases hk : remTy tm.kind with
    | some ty =>
      simp only [hk] at hOk
      cases hA : alGet st.pendingReminders ty with
      | none =>
        simp [hA] at hOk
      | some r =>
        simp only [hA] at hOk
        have hid : r.timeoutId = tm.id := by simpa using hOk
        have hrb := referencedBy_of_alGet _ _ _ hA
        rw [hid] at hrb
        simp [hrb] at hpred
    | none =>
      simp only [hk, hB] at hOk
      simp at hOk
  | some tid =>
    rw [List.eq_nil_iff_forall_not_mem]
    intro tm hm
    rw [mem_removeTimer] at hm
    obtain ⟨hmf, hne⟩ := hm
    rw [List.mem_filter] at hmf
    obtain ⟨hmem, hpred⟩ := hmf
    have hOk := hInv tm hmem
    unfold timerRefOk at hOk
    cases hk : remTy tm.kind with
    | some ty =>
      simp only [hk] at hOk
      cases hA : alGet st.pendingReminders ty with
      | none =>
        simp [hA] at hOk
      | some r =>
        simp only [hA] at hOk
        have hid : r.timeoutId = tm.id := by simpa using hOk
        have hrb := referencedBy_of_alGet _ _ _ hA
        rw [hid] at hrb
        simp [hrb] at hpred
    | none =>
      simp only [hk, hB] at hOk
      have : tid = tm.id := by simpa using hOk
      exact hne this.symm

end SVN

/-- C8: session-reset completeness.  Under the timer cross-reference
invariant, processing a session-created event clears every armed timer and
reminder, all batch state, the seen-message-id set, and resets the
idle/activity timestamps; draining timers afterwards is the identity (so no
previously armed reminder ever fires), and a subsequent idle event for that
session — at any later clock value — is accepted, not debounced: it records
the session's new debounce entry and emits the idle toast when toasts are
enabled. -/
theorem claim_C8 (cfg : SVN.Config) (orc : Nat → Bool) (sid : String)
    (st : SVN.PState) (hInv : SVN.timersRefInv st) :
    (SVN.handleEvent cfg (.sessionCreated (some sid)) st).timers = [] ∧
    (SVN.handleEvent cfg (.sessionCreated (some sid)) st).pendingReminders = [] ∧
    (SVN.handleEvent cfg (.sessionCreated (some sid)) st).pendingPermissionBatch = [] ∧
    (SVN.handleEvent cfg (.sessionCreated (some sid)) st).permissionBatchTimeout = none ∧
    (SVN.handleEvent cfg (.sessionCreated (some sid)) st).seenUserMessageIds = [] ∧
    (SVN.handleEvent cfg (.sessionCreated (some sid)) st).lastSessionIdleTime = 0 ∧
    (SVN.handleEvent cfg (.sessionCreated (some sid)) st).lastUserActivityTime = st.now ∧
    (∀ (dl : ℚ) (fuel : Nat),
      SVN.runTimersUntil cfg orc dl fuel
          (SVN.handleEvent cfg (.sessionCreated (some sid)) st) =
        SVN.handleEvent cfg (.sessionCreated (some sid)) st) ∧
    (∀ t : ℚ,
      SVN.alGet (SVN.handleEvent cfg (.sessionIdle (some sid) none)
          { SVN.handleEvent cfg (.sessionCreated (some sid)) st with
              now := t }).idleDebounce sid = some t ∧
      SVN.countEff .toastIdle (SVN.handleEvent cfg (.sessionIdle (some sid) none)
          { SVN.handleEvent cfg (.sessionCreated (some sid)) st with now := t }) =
        SVN.countEff .toastIdle (SVN.handleEvent cfg (.sessionCreated (some sid)) st) +
          (if cfg.enableToast = true then 1 else 0)) := by
  have hT : (SVN.handleSessionCreated (some sid) st).timers = [] :=
    SVN.handleSessionCreated_timers_nil (some sid) st hInv
  have hP : (SVN.handleSessionCreated (some sid) st).pendingReminders = [] :=
    SVN.handleSessionCreated_pr (some sid) st
  obtain ⟨hB, hTO, hSeen, hIdleT, hAct, hNow⟩ :=
    SVN.handleSessionCreated_reset (some sid) st
  have hDeb : SVN.alGet (SVN.handleSessionCreated (some sid) st).idleDebounce sid = none :=
    SVN.handleSessionCreated_debounce sid st
  refine ⟨hT, hP, hB, hTO, hSeen, hIdleT, hNow ▸ hAct, ?_, ?_⟩
  · intro dl fuel
    exact SVN.runTimersUntil_eq_of_timers_nil cfg orc dl fuel _ hT
  · intro t
    have hacc := SVN.handleSessionIdle_accepted cfg sid
      { SVN.handleSessionCreated (some sid) st with now := t }
      (by
        show (match SVN.alGet (SVN.handleSessionCreated (some sid) st).idleDebounce sid with
          | some prev => ¬(t - prev < 5000)
          | none => True)
        rw [hDeb]
        exact trivial)
    obtain ⟨ha1, ha2, _⟩ := hacc
    refine ⟨by simpa using ha1, ?_⟩
    show SVN.countEff .toastIdle (SVN.handleEvent cfg (.sessionIdle (some sid) none)
        { SVN.handleSessionCreated (some sid) st with now := t }) = _
    rw [ha2]
    simp [SVN.countEff, SVN.handleEvent]

/-- Witness for C8 at a concrete reachable state with an armed permission
reminder and a live batch-window timer. -/
theorem claim_C8_witness :
    SVN.timersRefInv (SVN.runSystem SVN.backoffCfg SVN.noThrowOrc
        [(0, .permissionAsked (some "p1"))] 10 900) ∧
    (SVN.handleEvent SVN.backoffCfg (.sessionCreated (some "s1"))
        (SVN.runSystem SVN.backoffCfg SVN.noThrowOrc
          [(0, .permissionAsked (some "p1"))] 10 900)).timers = [] ∧
    SVN.alGet (SVN.handleEvent SVN.backoffCfg (.sessionIdle (some "s1") none)
        { SVN.handleEvent SVN.backoffCfg (.sessionCreated (some "s1"))
            (SVN.runSystem SVN.backoffCfg SVN.noThrowOrc
              [(0, .permissionAsked (some "p1"))] 10 900) with
            now := 900 }).idleDebounce "s1" = some 900 :=
  ⟨by decide,
   (claim_C8 SVN.backoffCfg SVN.noThrowOrc "s1"
      (SVN.runSystem SVN.backoffCfg SVN.noThrowOrc
        [(0, .permissionAsked (some "p1"))] 10 900) (by decide)).1,
   ((claim_C8 SVN.backoffCfg SVN.noThrowOrc "s1"
      (SVN.runSystem SVN.backoffCfg SVN.noThrowOrc
        [(0, .permissionAsked (some "p1"))] 10 900) (by decide)).2.2.2.2.2.2.2.2 900).1⟩


namespace SVN

/-! ### Batch-coalescing lemmas -/

theorem runTimersUntil_not_due (cfg : Config) (orc : Nat → Bool) (dl : ℚ)
    (fuel : Nat) (st : PState) (h : ∀ tm ∈ st.timers, ¬ tm.fireAt ≤ dl) :
    runTimersUntil cfg orc dl fuel st = st := by
  cases fuel with
  | zero => rfl
  | succ n =>
    unfold runTimersUntil
    cases hE : findEarliest st.timers with
    | none => simp [hE]
    | some tm =>
      simp only [hE]
      rw [if_neg (h tm (findEarliest_mem _ _ hE))]

theorem handlePermissionAsked_fields (cfg : Config) (pid : Option String) (st : PState) :
    (handlePermissionAsked cfg pid st).pendingReminders = st.pendingReminders ∧
    (handlePermissionAsked cfg pid st).permissionBatchTimeout = some st.nextTimerId ∧
    (handlePermissionAsked cfg pid st).effects = st.effects ∧
    (handlePermissionAsked cfg pid st).timers =
      (match st.permissionBatchTimeout with
       | some tid0 => removeTimer st.timers tid0
       | none => st.timers) ++
        [⟨st.nextTimerId, st.now + jsOrQ cfg.permissionBatchWindowMs 800,
          .permissionBatch⟩] := by
  unfold handlePermissionAsked
  cases pid with
  | none =>
    dsimp only []
    (repeat' split) <;> simp_all
  | some p =>
    dsimp only []
    by_cases hp : p ∈ st.pendingPermissionBatch <;>
      [rw [if_pos hp]; rw [if_neg hp]] <;>
      (repeat' split) <;> simp_all

theorem handlePermissionAsked_batch_ne (cfg : Config) (pid : Option String)
    (st : PState) :
    (handlePermissionAsked cfg pid st).pendingPermissionBatch ≠ [] := by
  unfold handlePermissionAsked
  cases pid with
  | none =>
    dsimp only []
    (repeat' split) <;> simp
  | some p =>
    dsimp only []
    by_cases hp : p ∈ st.pendingPermissionBatch
    · rw [if_pos hp]
      (repeat' split) <;> exact List.ne_nil_of_mem hp
    · rw [if_neg hp]
      (repeat' split) <;> simp

theorem batchInv_handlePermissionAsked (cfg : Config) (pid : Option String)
    (st : PState) (h : batchInv st) :
    batchInv (handlePermissionAsked cfg pid st) := by
  obtain ⟨hpr, hc⟩ := h
  obtain ⟨hf1, hf2, hf3, hf4⟩ := handlePermissionAsked_fields cfg pid st
  refine ⟨by rw [hf1]; exact hpr,
    Or.inr ⟨st.nextTimerId, st.now + jsOrQ cfg.permissionBatchWindowMs 800, hf2, ?_,
      handlePermissionAsked_batch_ne cfg pid st⟩⟩
  rw [hf4]
  rcases hc with ⟨hto, htm, _⟩ | ⟨tid0, fa0, hto, htm, _⟩
  · rw [hto, htm]
    rfl
  · rw [hto, htm]
    simp [removeTimer]

end SVN

namespace SVN

theorem repliedBatchRemove_fields (pid : Option String) (st : PState) :
    (repliedBatchRemove pid st).permissionBatchTimeout = st.permissionBatchTimeout ∧
    (repliedBatchRemove pid st).timers = st.timers ∧
    (repliedBatchRemove pid st).pendingReminders = st.pendingReminders := by
  unfold repliedBatchRemove
  (repeat' split) <;> exact ⟨rfl, rfl, rfl⟩

theorem repliedBatchRemove_batch_some (p : String) (st : PState) :
    (repliedBatchRemove (some p) st).pendingPermissionBatch =
      st.pendingPermissionBatch.filter (fun x => x ≠ p) := by
  unfold repliedBatchRemove
  dsimp only []
  by_cases hp : p ∈ st.pendingPermissionBatch
  · rw [if_pos hp]
  · rw [if_neg hp]
    refine (List.filter_eq_self.mpr ?_).symm
    intro a ha
    rw [decide_eq_true_eq]
    intro he
    exact hp (he ▸ ha)

theorem repliedBatchRemove_batch_nil (pid : Option String) (st : PState)
    (h : st.pendingPermissionBatch = []) :
    (repliedBatchRemove pid st).pendingPermissionBatch = [] := by
  unfold repliedBatchRemove
  (repeat' split) <;> simp_all

theorem repliedBatchCancel_nil_some (st : PState) (tid : Nat)
    (h : st.pendingPermissionBatch = [])
    (hto : st.permissionBatchTimeout = some tid) :
    repliedBatchCancel st =
      { st with timers := removeTimer st.timers tid
                permissionBatchTimeout := none } := by
  unfold repliedBatchCancel
  rw [if_pos h, hto]

theorem repliedBatchCancel_nil_none (st : PState)
    (h : st.pendingPermissionBatch = [])
    (hto : st.permissionBatchTimeout = none) :
    repliedBatchCancel st = st := by
  unfold repliedBatchCancel
  rw [if_pos h, hto]

theorem repliedBatchCancel_ne (st : PState) (h : ¬ st.pendingPermissionBatch = []) :
    repliedBatchCancel st = st := by
  unfold repliedBatchCancel
  rw [if_neg h]

theorem repliedClearActive_fields2 (pid : Option String) (st : PState) :
    (repliedClearActive pid st).pendingPermissionBatch = st.pendingPermissionBatch ∧
    (repliedClearActive pid st).permissionBatchTimeout = st.permissionBatchTimeout ∧
    (repliedClearActive pid st).timers = st.timers ∧
    (repliedClearActive pid st).pendingReminders = st.pendingReminders := by
  unfold repliedClearActive
  (repeat' split) <;> exact ⟨rfl, rfl, rfl, rfl⟩

theorem cancelPendingReminder_id_of_nil (ty : RType) (s : PState)
    (hs : s.pendingReminders = []) : cancelPendingReminder ty s = s := by
  unfold cancelPendingReminder
  rw [hs]
  rfl

theorem batchInv_handlePermissionReplied (pid : Option String) (st : PState)
    (h : batchInv st) : batchInv (handlePermissionReplied pid st) := by
  obtain ⟨hpr, hc⟩ := h
  unfold handlePermissionReplied
  dsimp only []
  set st1 := repliedBatchRemove pid st with hst1
  set st2 := repliedBatchCancel st1 with hst2
  set st3 := repliedClearActive pid st2 with hst3
  obtain ⟨rto, rtm, rpr⟩ := repliedBatchRemove_fields pid st
  obtain ⟨_, b2pr, _, _⟩ := repliedBatchCancel_frame st1
  obtain ⟨c3b, c3to, c3tm, c3pr⟩ := repliedClearActive_fields2 pid st2
  rw [← hst1] at rto rtm rpr
  rw [← hst2] at b2pr
  rw [← hst3] at c3b c3to c3tm c3pr
  have hpr4 : ({ st3 with lastUserActivityTime := st3.now } : PState).pendingReminders
      = [] := by
    show st3.pendingReminders = []
    rw [c3pr, b2pr, rpr]
    exact hpr
  rw [cancelPendingReminder_id_of_nil _ _ hpr4]
  refine ⟨hpr4, ?_⟩
  show ({ st3 with lastUserActivityTime := st3.now } : PState).permissionBatchTimeout
        = none ∧
      ({ st3 with lastUserActivityTime := st3.now } : PState).timers = [] ∧
      ({ st3 with lastUserActivityTime := st3.now } :
        PState).pendingPermissionBatch = [] ∨
    ∃ (tid : Nat) (fa : ℚ),
      ({ st3 with lastUserActivityTime := st3.now } : PState).permissionBatchTimeout
          = some tid ∧
      ({ st3 with lastUserActivityTime := st3.now } : PState).timers =
        [⟨tid, fa, .permissionBatch⟩] ∧
      ({ st3 with lastUserActivityTime := st3.now } :
        PState).pendingPermissionBatch ≠ []
  rcases hc with ⟨hto, htm, hba⟩ | ⟨tid, fa, hto, htm, hba⟩
  · have hb1 : st1.pendingPermissionBatch = [] := by
      rw [hst1]
      exact repliedBatchRemove_batch_nil pid st hba
    have h2 : st2 = st1 := by
      rw [hst2]
      exact repliedBatchCancel_nil_none st1 hb1 (by rw [rto, hto])
    refine Or.inl ⟨?_, ?_, ?_⟩
    · show st3.permissionBatchTimeout = none
      rw [c3to, h2, rto, hto]
    · show st3.timers = []
      rw [c3tm, h2, rtm, htm]
    · show st3.pendingPermissionBatch = []
      rw [c3b, h2, hb1]
  · by_cases hb1 : st1.pendingPermissionBatch = []
    · have h2 : st2 = { st1 with timers := removeTimer st1.timers tid
                                 permissionBatchTimeout := none } := by
        rw [hst2]
        exact repliedBatchCancel_nil_some st1 tid hb1 (by rw [rto, hto])
      refine Or.inl ⟨?_, ?_, ?_⟩
      · show st3.permissionBatchTimeout = none
        rw [c3to, h2]
      · show st3.timers = []
        rw [c3tm, h2]
        show removeTimer st1.timers tid = []
        rw [rtm, htm]
        simp [removeTimer]
      · show st3.pendingPermissionBatch = []
        rw [c3b, h2]
        exact hb1
    · have h2 : st2 = st1 := by
        rw [hst2]
        exact repliedBatchCancel_ne st1 hb1
      refine Or.inr ⟨tid, fa, ?_, ?_, ?_⟩
      · show st3.permissionBatchTimeout = some tid
        rw [c3to, h2, rto, hto]
      · show st3.timers = [⟨tid, fa, .permissionBatch⟩]
        rw [c3tm, h2, rtm, htm]
      · show st3.pendingPermissionBatch ≠ []
        rw [c3b, h2]
        exact hb1

end SVN


namespace SVN

/-- Throughout a burst of permission requests and replies that all arrive
before the (restarted) batch window elapses, the batch invariant is
maintained, no timer fires, and no effect at all is emitted. -/
theorem batchInv_runTrace (cfg : Config) (orc : Nat → Bool) :
    ∀ (evs : List (ℚ × Event)) (st : PState), batchInv st →
      fitsWindow cfg st evs = true → ∀ fuel : Nat,
      batchInv (runTrace cfg orc evs fuel st) ∧
      (runTrace cfg orc evs fuel st).effects = st.effects := by
  intro evs
  induction evs with
  | nil => exact fun st h _ fuel => ⟨h, rfl⟩
  | cons pe rest ih =>
    obtain ⟨t, e⟩ := pe
    intro st h hfit fuel
    simp only [fitsWindow, Bool.and_eq_true] at hfit
    obtain ⟨⟨⟨h1, h2⟩, h3⟩, h4⟩ := hfit
    have hnow : st.now ≤ t := of_decide_eq_true h1
    have hnodue : ∀ tm ∈ st.timers, ¬ tm.fireAt ≤ t := by
      intro tm htm
      exact not_le.mpr (of_decide_eq_true ((List.all_eq_true.mp h2) tm htm))
    have hrun : runTimersUntil cfg orc t fuel st = st :=
      runTimersUntil_not_due cfg orc t fuel st hnodue
    have hmax : max st.now t = t := max_eq_right hnow
    have hstep : runTrace cfg orc ((t, e) :: rest) fuel st =
        runTrace cfg orc rest fuel (handleEvent cfg e { st with now := t }) := by
      show runTrace cfg orc rest fuel (handleEvent cfg e
        { runTimersUntil cfg orc t fuel st with
            now := max (runTimersUntil cfg orc t fuel st).now t }) = _
      rw [hrun, hmax]
    rw [hstep]
    have hb0 : batchInv ({ st with now := t } : PState) := h
    clear hstep hrun h1 h2 hnodue hmax hnow
    revert h3 h4
    cases e with
    | messageUpdated mid role tc =>
      intro h4 h3
      simp at h3
    | sessionCreated sid =>
      intro h4 h3
      simp at h3
    | sessionIdle sid parentID =>
      intro h4 h3
      simp at h3
    | permissionAsked pid =>
      intro h4 h3
      have hbE : batchInv (handleEvent cfg (.permissionAsked pid)
          ({ st with now := t } : PState)) :=
        batchInv_handlePermissionAsked cfg pid _ hb0
      obtain ⟨ihb, ihe⟩ := ih _ hbE h4 fuel
      refine ⟨ihb, ?_⟩
      rw [ihe]
      exact (handlePermissionAsked_fields cfg pid _).2.2.1
    | permissionReplied pid =>
      intro h4 h3
      have hbE : batchInv (handleEvent cfg (.permissionReplied pid)
          ({ st with now := t } : PState)) :=
        batchInv_handlePermissionReplied pid _ hb0
      obtain ⟨ihb, ihe⟩ := ih _ hbE h4 fuel
      refine ⟨ihb, ?_⟩
      rw [ihe]
      exact handlePermissionReplied_effects pid _

/-- Draining a timer set containing no batch-window timer adds none of the
effects `f` counts, provided `f` ignores reminder speech and the warning
toast (in particular: no batched toast is ever added). -/
theorem countEffP_drain_no_batch (f : Effect → Bool) (cfg : Config)
    (orc : Nat → Bool) (dl : ℚ)
    (hW : f .toastWarning = false)
    (hRem : ∀ ty b c, f (.speakReminder ty b c) = false) :
    ∀ (fuel : Nat) (st : PState),
      (∀ tm ∈ st.timers, tm.kind ≠ .permissionBatch) →
      countEffP f (runTimersUntil cfg orc dl fuel st) = countEffP f st := by
  intro fuel
  induction fuel with
  | zero => exact fun st _ => rfl
  | succ n ih =>
    intro st hnb
    unfold runTimersUntil
    cases hE : findEarliest st.timers with
    | none => simp [hE]
    | some tm =>
      simp only [hE]
      by_cases hdl : tm.fireAt ≤ dl
      · rw [if_pos hdl]
        have hmem := findEarliest_mem _ _ hE
        have hkind := hnb tm hmem
        set stp : PState := { st with now := max st.now tm.fireAt
                                      timers := removeTimer st.timers tm.id } with hstp
        have hsub : ∀ tm2 ∈ stp.timers, tm2 ∈ st.timers := by
          intro tm2 htm2
          have : tm2 ∈ removeTimer st.timers tm.id := htm2
          exact ((mem_removeTimer _ _ _).mp this).1
        cases hk : tm.kind with
        | permissionBatch => exact absurd hk hkind
        | reminderMain ty d =>
          have hnb2 : ∀ tm2 ∈ (fireReminderMain cfg (orc tm.id) ty d stp).timers,
              tm2.kind ≠ .permissionBatch := by
            intro tm2 htm2
            rcases timers_fireReminderMain cfg _ ty d stp tm2 htm2 with hin | hfu
            · exact hnb tm2 (hsub tm2 hin)
            · rw [hfu]
              simp
          show countEffP f (runTimersUntil cfg orc dl n
            (fireReminderMain cfg (orc tm.id) ty d stp)) = countEffP f st
          rw [ih _ hnb2]
          rw [countEffP_fireReminderMain f cfg _ ty d stp hW (fun c => hRem ty false c)]
          rfl
        | reminderFollowUp ty =>
          have hnb2 : ∀ tm2 ∈ (fireReminderFollowUp cfg (orc tm.id) ty stp).timers,
              tm2.kind ≠ .permissionBatch := by
            intro tm2 htm2
            rw [timers_fireReminderFollowUp] at htm2
            exact hnb tm2 (hsub tm2 htm2)
          show countEffP f (runTimersUntil cfg orc dl n
            (fireReminderFollowUp cfg (orc tm.id) ty stp)) = countEffP f st
          rw [ih _ hnb2]
          rw [countEffP_fireReminderFollowUp f cfg _ ty stp (fun c => hRem ty true c)]
          rfl
      · rw [if_neg hdl]

/-- When the armed set is exactly the live batch-window timer and the batch
is non-empty, letting the window elapse emits exactly one `f`-counted
effect: the batched toast carrying the captured batch's length. -/
theorem countEffP_drain_batch_fire (cfg : Config) (orc : Nat → Bool) (dl : ℚ)
    (st : PState) (tid : Nat) (fa : ℚ)
    (hT : cfg.enableToast = true)
    (htm : st.timers = [⟨tid, fa, .permissionBatch⟩])
    (hne : st.pendingPermissionBatch ≠ [])
    (hfa : fa ≤ dl)
    (f : Effect → Bool)
    (hW : f .toastWarning = false)
    (hRem : ∀ ty b c, f (.speakReminder ty b c) = false)
    (hS : ∀ l, f (.soundPlayed .permission l) = false)
    (hI : f (.speakImmediate .permission) = false)
    (hBn : f (.toastBatch st.pendingPermissionBatch.length) = true) :
    ∀ fuel : Nat, countEffP f (runTimersUntil cfg orc dl (fuel + 1) st) =
      countEffP f st + 1 := by
  intro fuel
  have hE : findEarliest st.timers = some ⟨tid, fa, .permissionBatch⟩ := by
    rw [htm]
    rfl
  unfold runTimersUntil
  simp only [hE]
  rw [if_pos hfa]
  set stp : PState := { st with now := max st.now fa
                                timers := removeTimer st.timers tid } with hstp
  have hptm : stp.timers = [] := by
    show removeTimer st.timers tid = []
    rw [htm]
    simp [removeTimer]
  have hnb2 : ∀ tm2 ∈ (fireTimer cfg (orc tid) .permissionBatch stp).timers,
      tm2.kind ≠ .permissionBatch := by
    intro tm2 htm2
    rcases timers_processPermissionBatch cfg stp tm2 htm2 with hin | hk
    · rw [hptm] at hin
      simp at hin
    · rw [hk]
      simp
  rw [countEffP_drain_no_batch f cfg orc dl hW hRem fuel _ hnb2]
  show countEffP f (processPermissionBatch cfg stp) = countEffP f st + 1
  rw [countEffP_processPermissionBatch f cfg stp hS hI]
  have hbeq : stp.pendingPermissionBatch = st.pendingPermissionBatch := rfl
  have hcond : cfg.enableToast = true ∧ stp.pendingPermissionBatch ≠ [] ∧
      f (.toastBatch stp.pendingPermissionBatch.length) = true := by
    rw [hbeq]
    exact ⟨hT, hne, hBn⟩
  rw [if_pos hcond]
  rfl

end SVN


namespace SVN

theorem cancelPendingReminder_batch (ty : RType) (st : PState) :
    (cancelPendingReminder ty st).pendingPermissionBatch =
      st.pendingPermissionBatch := by
  unfold cancelPendingReminder
  split <;> rfl

theorem repliedBatchCancel_batch (st : PState) :
    (repliedBatchCancel st).pendingPermissionBatch = st.pendingPermissionBatch := by
  unfold repliedBatchCancel
  (repeat' split) <;> rfl

end SVN

/-- C4: batch coalescing.  Permission requests arriving while the batch
window is open are collected: a request whose id is already pending is
ignored, a new id is appended, and a `permission.replied` removes its id
from the pending batch.  Starting from a clean state, over any burst of
permission requests and replies that all arrive before the (restarted)
window elapses, no notification at all is emitted; when the window then
elapses, if ids are still pending exactly one batched toast is emitted and
it carries exactly the number of still-pending ids, and if all ids were
removed the window timer has been cancelled (nothing is armed) and
draining emits nothing. -/
theorem claim_C4 (cfg : SVN.Config) (orc : Nat → Bool) (st0 : SVN.PState)
    (evs : List (ℚ × SVN.Event)) (fuel fuelD : Nat) (dl : ℚ)
    (hT : cfg.enableToast = true)
    (hq : st0.timers = [] ∧ st0.permissionBatchTimeout = none ∧
      st0.pendingPermissionBatch = [] ∧ st0.pendingReminders = [])
    (hfit : SVN.fitsWindow cfg st0 evs = true) :
    (∀ (p : String) (st : SVN.PState), p ∈ st.pendingPermissionBatch →
      (SVN.handlePermissionAsked cfg (some p) st).pendingPermissionBatch =
        st.pendingPermissionBatch) ∧
    (∀ (p : String) (st : SVN.PState), p ∉ st.pendingPermissionBatch →
      (SVN.handlePermissionAsked cfg (some p) st).pendingPermissionBatch =
        st.pendingPermissionBatch ++ [p]) ∧
    (∀ (p : String) (st : SVN.PState),
      (SVN.handlePermissionReplied (some p) st).pendingPermissionBatch =
        st.pendingPermissionBatch.filter (fun x => x ≠ p)) ∧
    (SVN.runTrace cfg orc evs fuel st0).effects = st0.effects ∧
    ((SVN.runTrace cfg orc evs fuel st0).pendingPermissionBatch.length ≠ 0 →
      (∀ tm ∈ (SVN.runTrace cfg orc evs fuel st0).timers, tm.fireAt ≤ dl) →
      SVN.countEffP SVN.isBatchToast (SVN.runTimersUntil cfg orc dl (fuelD + 1)
          (SVN.runTrace cfg orc evs fuel st0)) =
        SVN.countEffP SVN.isBatchToast (SVN.runTrace cfg orc evs fuel st0) + 1 ∧
      SVN.countEff
          (.toastBatch (SVN.runTrace cfg orc evs fuel st0).pendingPermissionBatch.length)
          (SVN.runTimersUntil cfg orc dl (fuelD + 1)
            (SVN.runTrace cfg orc evs fuel st0)) =
        SVN.countEff
          (.toastBatch (SVN.runTrace cfg orc evs fuel st0).pendingPermissionBatch.length)
          (SVN.runTrace cfg orc evs fuel st0) + 1) ∧
    ((SVN.runTrace cfg orc evs fuel st0).pendingPermissionBatch.length = 0 →
      (SVN.runTrace cfg orc evs fuel st0).timers = [] ∧
      (SVN.runTrace cfg orc evs fuel st0).permissionBatchTimeout = none ∧
      SVN.runTimersUntil cfg orc dl fuelD (SVN.runTrace cfg orc evs fuel st0) =
        SVN.runTrace cfg orc evs fuel st0) := by
  have hInv0 : SVN.batchInv st0 :=
    ⟨hq.2.2.2, Or.inl ⟨hq.2.1, hq.1, hq.2.2.1⟩⟩
  obtain ⟨hbE, heff⟩ := SVN.batchInv_runTrace cfg orc evs st0 hInv0 hfit fuel
  refine ⟨?_, ?_, ?_, heff, ?_, ?_⟩
  · intro p st hp
    unfold SVN.handlePermissionAsked
    dsimp only []
    rw [if_pos hp]
    (repeat' split) <;> rfl
  · intro p st hp
    unfold SVN.handlePermissionAsked
    dsimp only []
    rw [if_neg hp]
    (repeat' split) <;> rfl
  · intro p st
    unfold SVN.handlePermissionReplied
    dsimp only []
    rw [SVN.cancelPendingReminder_batch]
    show (SVN.repliedClearActive (some p) (SVN.repliedBatchCancel
        (SVN.repliedBatchRemove (some p) st))).pendingPermissionBatch = _
    rw [(SVN.repliedClearActive_fields2 _ _).1, SVN.repliedBatchCancel_batch,
      SVN.repliedBatchRemove_batch_some]
  · intro hn hdl
    obtain ⟨hprE, hcE⟩ := hbE
    rcases hcE with ⟨hto, htm, hba⟩ | ⟨tid, fa, hto, htm, hba⟩
    · exact absurd (by rw [hba]; rfl) hn
    · have hfa : fa ≤ dl := by
        refine hdl ⟨tid, fa, .permissionBatch⟩ ?_
        rw [htm]
        exact List.mem_singleton_self _
      constructor
      · exact SVN.countEffP_drain_batch_fire cfg orc dl _ tid fa hT htm hba hfa
          SVN.isBatchToast rfl (fun ty b c => rfl) (fun l => rfl) rfl rfl fuelD
      · rw [SVN.countEff_eq_countEffP, SVN.countEff_eq_countEffP]
        exact SVN.countEffP_drain_batch_fire cfg orc dl _ tid fa hT htm hba hfa
          (fun x => decide (x =
            .toastBatch (SVN.runTrace cfg orc evs fuel st0).pendingPermissionBatch.length))
          (by simp) (fun ty b c => by simp) (fun l => by simp) (by simp) (by simp) fuelD
  · intro hn
    obtain ⟨hprE, hcE⟩ := hbE
    rcases hcE with ⟨hto, htm, hba⟩ | ⟨tid, fa, hto, htm, hba⟩
    · exact ⟨htm, hto, SVN.runTimersUntil_eq_of_timers_nil cfg orc dl fuelD _ htm⟩
    · exact absurd (List.length_eq_zero.mp hn) hba

/-- Witness for C4: three requests (one a duplicate id) and one reply
inside one restarted window; one id stays pending and the elapsed window
emits exactly one batched toast carrying count 1. -/
theorem claim_C4_witness :
    (SVN.backoffCfg.enableToast = true ∧
     (SVN.initState.timers = [] ∧ SVN.initState.permissionBatchTimeout = none ∧
      SVN.initState.pendingPermissionBatch = [] ∧
      SVN.initState.pendingReminders = []) ∧
     SVN.fitsWindow SVN.backoffCfg SVN.initState
       [(0, .permissionAsked (some "p1")), (50, .permissionAsked (some "p2")),
        (50, .permissionAsked (some "p1")),
        (100, .permissionReplied (some "p2"))] = true) ∧
    SVN.countEff
        (.toastBatch (SVN.runTrace SVN.backoffCfg SVN.noThrowOrc
          [(0, .permissionAsked (some "p1")), (50, .permissionAsked (some "p2")),
           (50, .permissionAsked (some "p1")),
           (100, .permissionReplied (some "p2"))] 10
          SVN.initState).pendingPermissionBatch.length)
        (SVN.runTimersUntil SVN.backoffCfg SVN.noThrowOrc 100000 (9 + 1)
          (SVN.runTrace SVN.backoffCfg SVN.noThrowOrc
            [(0, .permissionAsked (some "p1")), (50, .permissionAsked (some "p2")),
             (50, .permissionAsked (some "p1")),
             (100, .permissionReplied (some "p2"))] 10 SVN.initState)) =
      SVN.countEff
        (.toastBatch (SVN.runTrace SVN.backoffCfg SVN.noThrowOrc
          [(0, .permissionAsked (some "p1")), (50, .permissionAsked (some "p2")),
           (50, .permissionAsked (some "p1")),
           (100, .permissionReplied (some "p2"))] 10
          SVN.initState).pendingPermissionBatch.length)
        (SVN.runTrace SVN.backoffCfg SVN.noThrowOrc
          [(0, .permissionAsked (some "p1")), (50, .permissionAsked (some "p2")),
           (50, .permissionAsked (some "p1")),
           (100, .permissionReplied (some "p2"))] 10 SVN.initState) + 1 :=
  ⟨⟨by decide, ⟨by decide, by decide, by decide, by decide⟩, by decide⟩,
   ((claim_C4 SVN.backoffCfg SVN.noThrowOrc SVN.initState
      [(0, .permissionAsked (some "p1")), (50, .permissionAsked (some "p2")),
       (50, .permissionAsked (some "p1")),
       (100, .permissionReplied (some "p2"))] 10 9 100000
      (by decide) ⟨by decide, by decide, by decide, by decide⟩
      (by decide)).2.2.2.2.1 (by decide) (by decide)).2⟩

end

